import Mathlib

/-! White-box cartoonization: the in-browser transform pipeline.

A shallow embedding of `Research-and-Training/Experimental-Implementations/model.js`:
the letterbox padding of `normalize`, the crop of `predict`, the value maps
applied to pixels before and after inference, the backend fallback chain and
the interplay of image loading and model loading; and of the parts of
`Source code/static/js/main.js` that compute: `resizeImage`, the download name
of `processImage`, and the type test of the file handlers.

Modelling conventions:
* JavaScript numbers are rationals (`ℚ`); tensor dimensions are naturals.
  Arithmetic is exact in `predict_pad` and `resizeImage_dims`; where the
  rounding of a quotient or product to a double can change a result,
  `predict_pad_double` and `resizeImage_dims_double` round as the engine does
  (`Double_round`).
* A tensor is represented by its shape, the list of its axis extents.  The
  shape that `tf.browser.fromPixels` gives an image is `[height, width, 3]`.
* `tf.image.resizeBilinear` and the graph model only enter through the shape
  of their result.
* A JavaScript string is the list of its characters.
* A promise enters through the way it settles: fulfilled with a value, or
  rejected.
* A TensorFlow.js call either returns or throws (`TensorLib`); the library
  itself is not part of the repository.
-/

namespace Cartoonization

/-! ## The TensorFlow.js and JavaScript primitives used by the pipeline -/

/-- The JavaScript `Math.round`: the nearest integer, a tie going up. -/
def Math_round (x : ℚ) : ℤ := ⌊x + 1 / 2⌋

/-- The JavaScript `Math.abs`. -/
def Math_abs (x : ℚ) : ℚ := |x|

/-- The JavaScript `Math.max` of two numbers. -/
def Math_max (x y : ℚ) : ℚ := max x y

/-- Shape of `tf.browser.fromPixels(img)` for an image `width` wide and
`height` high: rows first, then columns, then the three colour channels. -/
def fromPixels_shape (width height : ℕ) : List ℕ := [height, width, 3]

/-- Shape of `t.pad(paddings)`: each axis grows by its `before` and `after`
amounts. -/
def tf_pad_shape (shape : List ℕ) (paddings : List (ℕ × ℕ)) : List ℕ :=
  List.zipWith (fun d p => p.1 + d + p.2) shape paddings

/-- One axis of `t.pad(paddings)`: `before` filler entries, the data, `after`
filler entries. -/
def tf_pad_axis {α : Type} (fill : α) (p : ℕ × ℕ) (xs : List α) : List α :=
  List.replicate p.1 fill ++ xs ++ List.replicate p.2 fill

/-- Shape of `t.slice(begin)` with no `size` argument: every axis keeps what
lies from its `begin` offset to its end, an axis `begin` does not reach
starting at 0. -/
def tf_slice_shape (shape : List ℕ) (begin_ : List ℤ) : List ℤ :=
  shape.enum.map (fun p => (p.2 : ℤ) - begin_.getD p.1 0)

/-- One axis of `t.slice(begin)` with no `size` argument: the leading `b`
entries are dropped. -/
def tf_slice_axis {α : Type} (b : ℤ) (xs : List α) : List α :=
  xs.drop b.toNat

/-- Shape of `t.squeeze()`: the axes of extent 1 are removed. -/
def tf_squeeze_shape (shape : List ℕ) : List ℕ :=
  shape.filter (fun d => d ≠ 1)

/-! ## `APP` -/

/-- The constant `APP.size`. -/
def APP_size : ℕ := 600

/-! ## `normalize` -/

/-- The `pad` constant of `normalize`, from `const [w, h] = img.shape`. -/
def normalize_pad (shape : List ℕ) : List (ℕ × ℕ) :=
  let w := shape.getD 0 0
  let h := shape.getD 1 0
  if w > h then [(0, 0), (w - h, 0), (0, 0)] else [(h - w, 0), (0, 0), (0, 0)]

/-- The value map of `normalize`, `img.sub(offset).div(offset)` with
`offset = tf.scalar(127.5)`, on one entry of the tensor. -/
def normalize_value (x : ℚ) : ℚ :=
  let offset : ℚ := 127.5
  (x - offset) / offset

/-- What `normalize` computes on the way, at the level of shapes. -/
structure Normalized where
  /-- The paddings handed to `img.pad`. -/
  pad : List (ℕ × ℕ)
  /-- Shape of the image after `img.pad(pad)`. -/
  padded : List ℕ
  /-- Shape of the returned tensor. -/
  shape : List ℕ
  deriving DecidableEq, Repr

/-- The function `normalize(img)`, on the shape of `img`.  The bilinear resize
gives `[size, size, 3]`, reshaped to `[1, size, size, 3]`. -/
def normalize (img : List ℕ) : Normalized :=
  let pad := normalize_pad img
  let padded := tf_pad_shape img pad
  let size := APP_size
  { pad := pad, padded := padded, shape := [1, size, size, 3] }

/-! ## `predict` -/

/-- The rescale `predict` applies to the model output,
`.sub(tf.scalar(-1)).div(tf.scalar(2)).clipByValue(0, 1)`, on one entry. -/
def denormalize_value (v : ℚ) : ℚ :=
  max 0 (min 1 ((v - (-1)) / 2))

/-- The sub-expression `Math.abs(w - h) / Math.max(w, h)` of `predict`: the
fraction of the padded square that is padding. -/
def predict_pad_fraction (w h : ℕ) : ℚ :=
  Math_abs ((w : ℚ) - (h : ℚ)) / Math_max (w : ℚ) (h : ℚ)

/-- The `pad` constant of `predict`:
`Math.round(Math.abs(w - h) / Math.max(w, h) * APP.size)`, in exact
arithmetic. -/
def predict_pad (w h : ℕ) : ℤ :=
  Math_round (Math_abs ((w : ℚ) - (h : ℚ)) / Math_max (w : ℚ) (h : ℚ) * (APP_size : ℚ))

/-- The `slice` constant of `predict`: `(w > h) ? [0, pad, 0] : [pad, 0, 0]`. -/
def predict_slice (w h : ℕ) : List ℤ :=
  let pad := predict_pad w h
  if w > h then [0, pad, 0] else [pad, 0, 0]

/-- What `predict` computes on the way, at the level of shapes. -/
structure Predicted where
  /-- The constant `shape`, the shape of the input image. -/
  shape : List ℕ
  /-- Shape of the tensor given to the model. -/
  input : List ℕ
  /-- The constant `pad`. -/
  pad : ℤ
  /-- The constant `slice`. -/
  slice : List ℤ
  /-- Shape of `img_out` when it is handed to `draw`. -/
  img_out : List ℤ
  deriving DecidableEq, Repr

/-- The function `predict`, on an image given by the shape `tf.browser.fromPixels`
reads from it.  `model` is the shape of `APP.model.predict`'s result as a
function of the shape of its input. -/
def predict_shape (model : List ℕ → List ℕ) (shape : List ℕ) : Predicted :=
  let w := shape.getD 0 0
  let h := shape.getD 1 0
  let img := normalize shape
  let result := model img.shape
  let img_out := tf_squeeze_shape result
  let pad := predict_pad w h
  let slice := predict_slice w h
  { shape := shape, input := img.shape, pad := pad, slice := slice,
    img_out := tf_slice_shape img_out slice }

/-- The function `predict` on an image element `width` wide and `height` high. -/
def predict (model : List ℕ → List ℕ) (width height : ℕ) : Predicted :=
  predict_shape model (fromPixels_shape width height)

/-! ## `predict` up to inference, against a library that may throw -/

/-- The calls into TensorFlow.js and the model that `predict` and `normalize`
make up to inference, with their arguments; a tensor is given by its shape. -/
inductive PredictCall where
  /-- The call `tf.browser.fromPixels(imgElement)`, on an image of this width and height. -/
  | fromPixels (width height : ℕ)
  /-- The call `img.pad(pad)`. -/
  | pad (img : List ℕ) (paddings : List (ℕ × ℕ))
  /-- The call `tf.image.resizeBilinear(img, [size, size])`. -/
  | resizeBilinear (img : List ℕ) (size : List ℕ)
  /-- The call `.reshape([1, size, size, 3])`. -/
  | reshape (img : List ℕ) (shape : List ℕ)
  /-- The call `tf.scalar(127.5)`. -/
  | scalar (value : ℚ)
  /-- The call `img.sub(offset)`. -/
  | sub (img : List ℕ)
  /-- The call `.div(offset)`. -/
  | div (img : List ℕ)
  /-- The call `APP.model.predict({ 'input_photo:0': img })`. -/
  | model_predict (input : List ℕ)
  deriving DecidableEq, Repr

/-- The library as `predict` meets it: a call returns a tensor or throws.
What it throws, `ε`, is the library's business. -/
def TensorLib (ε : Type) : Type := PredictCall → Except ε (List ℕ)

/-- One call `c` followed by the rest `k` of the function: `c` is logged; when
it throws, the function ends there with that exception, as no call stands
inside a `try`; when it returns, `k` goes on with its result. -/
def TensorLib.call {ε : Type} (tf : TensorLib ε) (c : PredictCall)
    (k : List ℕ → List PredictCall × Except ε (List ℕ)) :
    List PredictCall × Except ε (List ℕ) :=
  match tf c with
  | Except.error e => ([c], Except.error e)
  | Except.ok t => (c :: (k t).1, (k t).2)

/-- The function `normalize(img)` followed by `k`: the calls it makes, in
order, and how it ends. -/
def normalize_run {ε : Type} (tf : TensorLib ε) (img : List ℕ)
    (k : List ℕ → List PredictCall × Except ε (List ℕ)) :
    List PredictCall × Except ε (List ℕ) :=
  let pad := normalize_pad img
  tf.call (PredictCall.pad img pad) fun img =>
  let size := APP_size
  tf.call (PredictCall.resizeBilinear img [size, size]) fun img =>
  tf.call (PredictCall.reshape img [1, size, size, 3]) fun img =>
  tf.call (PredictCall.scalar 127.5) fun _offset =>
  tf.call (PredictCall.sub img) fun img =>
  tf.call (PredictCall.div img) k

/-- The function `predict(imgElement)` up to and including
`await APP.model.predict(...)`, on an image `width` wide and `height` high:
the calls made, in order, and either the model's result or the exception
`predict` ends with. -/
def predict_to_inference {ε : Type} (tf : TensorLib ε) (width height : ℕ) :
    List PredictCall × Except ε (List ℕ) :=
  tf.call (PredictCall.fromPixels width height) fun img =>
  normalize_run tf img fun img =>
  tf.call (PredictCall.model_predict img) fun result => ([], Except.ok result)

/-- A library all of whose calls return, with the shapes TensorFlow.js gives;
the model returns a tensor of the shape of its input. -/
def TensorLib.returning : TensorLib String
  | PredictCall.fromPixels width height => Except.ok (fromPixels_shape width height)
  | PredictCall.pad img paddings => Except.ok (tf_pad_shape img paddings)
  | PredictCall.resizeBilinear img size => Except.ok (size ++ img.drop 2)
  | PredictCall.reshape _ shape => Except.ok shape
  | PredictCall.scalar _ => Except.ok []
  | PredictCall.sub img => Except.ok img
  | PredictCall.div img => Except.ok img
  | PredictCall.model_predict input => Except.ok input

/-- A library whose `tf.browser.fromPixels` throws on an image without pixels,
as reading the pixels of an empty canvas does, and that returns otherwise. -/
def TensorLib.strict : TensorLib String
  | PredictCall.fromPixels width height =>
    if width = 0 ∨ height = 0 then Except.error "IndexSizeError"
    else Except.ok (fromPixels_shape width height)
  | c => TensorLib.returning c

/-! ## `main.js`: `resizeImage` and the download name of `processImage` -/

/-- The width and height `resizeImage` gives its canvas, for an image of
`img.width = width` and `img.height = height`, in exact arithmetic. -/
def resizeImage_dims (width height maxDimension : ℕ) : ℤ × ℤ :=
  if width > maxDimension ∨ height > maxDimension then
    if width > height then
      ((maxDimension : ℤ), Math_round ((height : ℚ) * ((maxDimension : ℚ) / (width : ℚ))))
    else
      (Math_round ((width : ℚ) * ((maxDimension : ℚ) / (height : ℚ))), (maxDimension : ℤ))
  else
    ((width : ℤ), (height : ℤ))

/-- Scan of `lastIndexOf`: `acc` is the index of the last `c` met before
position `i`, or -1. -/
def String_lastIndexOf_from (c : Char) : List Char → ℕ → ℤ → ℤ
  | [], _, acc => acc
  | x :: xs, i, acc => String_lastIndexOf_from c xs (i + 1) (if x = c then (i : ℤ) else acc)

/-- The JavaScript `s.lastIndexOf(c)` for a one-character `c`: the index of
the last `c` in `s`, or -1 when there is none.  A string is the list of its
characters. -/
def String_lastIndexOf (s : List Char) (c : Char) : ℤ :=
  String_lastIndexOf_from c s 0 (-1)

/-- The JavaScript `s.substring(indexStart, indexEnd)`: both indices are
brought into `[0, s.length]`, swapped when out of order, and the characters
between them are returned. -/
def String_substring (s : List Char) (indexStart indexEnd : ℤ) : List Char :=
  let a := (min (max indexStart 0) (s.length : ℤ)).toNat
  let b := (min (max indexEnd 0) (s.length : ℤ)).toNat
  (s.drop (min a b)).take (max a b - min a b)

/-- The `downloadName` that `processImage` sets on the save button, from
`file.name`. -/
def processImage_downloadName (name : List Char) : List Char :=
  let lastDotIndex := String_lastIndexOf name '.'
  let originalName :=
    if lastDotIndex ≠ -1 then String_substring name 0 lastDotIndex else name
  "Cartoonized_".toList ++ originalName ++ ".jpg".toList

/-! ## The file handlers -/

/-- A `File` as the handlers read it: its `name` and its MIME `type`. -/
structure File where
  /-- The property `file.name`. -/
  name : List Char
  /-- The property `file.type`. -/
  type : List Char
  deriving DecidableEq, Repr

/-- Whether `type.match('image.*')` is not `null`.  The string argument makes
the regular expression `image.*`, which has no anchor: it matches wherever the
text `image` occurs, the `.*` taking what follows on the line. -/
def String_match_image (type : List Char) : Bool :=
  type.tails.any (fun t => "image".toList.isPrefixOf t)

/-- What a handler does with a file. -/
inductive HandlerAction where
  /-- The call `alert(message)`. -/
  | alert (message : String)
  /-- The file is read and shown: `inputImage.src = event.target.result`
  (in `model.js`, `APP.source.src = e.target.result`). -/
  | preview (file : File)
  /-- The call `processImage(file)`. -/
  | processImage (file : File)
  deriving DecidableEq, Repr

/-- The `change` listener of `fileInput` in `main.js`, on `e.target.files`. -/
def fileInput_change (files : List File) : List HandlerAction :=
  match files with
  | file :: _ =>
    if !String_match_image file.type then
      [HandlerAction.alert "Error: Please select a valid image file (jpg, png, etc)."]
    else [HandlerAction.preview file, HandlerAction.processImage file]
  | [] => []

/-- The function `handleDrop` of `main.js`, on `e.dataTransfer.files`. -/
def handleDrop (files : List File) : List HandlerAction :=
  match files with
  | file :: _ =>
    if !String_match_image file.type then
      [HandlerAction.alert "Error: Please select a valid image file."]
    else [HandlerAction.preview file, HandlerAction.processImage file]
  | [] => []

/-- The `change` listener of `cameraInput` in `main.js`, on `e.target.files`. -/
def cameraInput_change (files : List File) : List HandlerAction :=
  match files with
  | file :: _ =>
    if !String_match_image file.type then
      [HandlerAction.alert "Error: Please capture a valid image."]
    else [HandlerAction.preview file, HandlerAction.processImage file]
  | [] => []

/-- The callback the `change` listener of `model.js` runs on each file `f`. -/
def model_file_change (f : File) : List HandlerAction :=
  if !String_match_image f.type then
    [HandlerAction.alert
      ("Error: File is not recognized as an image. Type detected: " ++ String.mk f.type)]
  else [HandlerAction.preview f]

/-! ## Backend selection -/

/-- The backends `tf.setBackend` is called with. -/
inductive Backend where
  | wasm
  | webgl
  | cpu
  deriving DecidableEq, Repr

/-- How a promise settles: fulfilled with a value, or rejected.  The promise
of `tf.setBackend` carries a boolean, `true` when the backend was initialised
and `false` when it failed to initialise; it is rejected when the backend is
not registered. -/
inductive Settled (α : Type) where
  | fulfilled (value : α)
  | rejected
  deriving DecidableEq, Repr

/-- What happens at startup. -/
inductive StartupEvent where
  /-- The call `tf.setBackend(name)`. -/
  | setBackend (name : Backend)
  /-- The call `runModel()`. -/
  | runModel
  /-- The call `console.error(message, e)`. -/
  | console_error (message : String)
  deriving DecidableEq, Repr

/-- How the promise of `runModel()` settles: the body of this `async`
function is one `try ... catch` whose handler logs and alerts, so the promise
is fulfilled. -/
def runModel_settled : Settled Unit := Settled.fulfilled ()

/-- The chain `p.then(() => runModel()).catch(handler)`: `runModel` is called
when `p` is fulfilled, whatever value it carries, as the callback takes no
argument; `handler` runs when `p` is rejected, or when the promise
`runModel()` returned is. -/
def then_runModel_catch (p : Settled Bool) (handler : List StartupEvent) : List StartupEvent :=
  match p with
  | Settled.fulfilled _ =>
    StartupEvent.runModel ::
      (match runModel_settled with
       | Settled.fulfilled _ => []
       | Settled.rejected => handler)
  | Settled.rejected => handler

/-- The chain `p.then(() => runModel())`, with no `catch`. -/
def then_runModel (p : Settled Bool) : List StartupEvent :=
  match p with
  | Settled.fulfilled _ => [StartupEvent.runModel]
  | Settled.rejected => []

/-- The first statement of `model.js`, given how each `tf.setBackend` promise
settles should it be made. -/
def startup (wasm webgl cpu : Settled Bool) : List StartupEvent :=
  StartupEvent.setBackend Backend.wasm ::
    then_runModel_catch wasm
      (StartupEvent.console_error "WASM backend failed, falling back to WebGL" ::
        StartupEvent.setBackend Backend.webgl ::
          then_runModel_catch webgl
            (StartupEvent.console_error "WebGL failed, falling back to CPU" ::
              StartupEvent.setBackend Backend.cpu :: then_runModel cpu))

/-- The backends tried, in the order of the calls. -/
def backends_tried (events : List StartupEvent) : List Backend :=
  events.filterMap (fun e =>
    match e with
    | StartupEvent.setBackend b => some b
    | _ => none)

/-! ## The page: image loading against model loading -/

/-- The part of the page's state that decides when `predict` is invoked. -/
structure Page where
  /-- Whether `APP.model` is set (not `null`). -/
  model : Bool
  /-- Whether `runModel` is waiting for `tf.loadGraphModel`. -/
  loading : Bool
  /-- Whether `APP.source.src` is a non-empty string. -/
  src : Bool
  /-- Whether the computed `display` of `APP.source` is not `none`. -/
  displayed : Bool
  /-- Number of pending `setTimeout(() => { predict(APP.source) }, 50)`. -/
  timers : ℕ
  /-- The invocations of `predict` so far, oldest first: for each, whether
  `APP.model` was set when it was invoked. -/
  predicts : List Bool
  deriving DecidableEq, Repr

/-- What can happen on the page. -/
inductive PageEvent where
  /-- An assignment `APP.source.src = ...` (file reader, or click on an example). -/
  | src_assigned
  /-- The handler `APP.source.onload` runs. -/
  | onload
  /-- A pending timer of `onload` fires. -/
  | timeout
  /-- The call `runModel()`, up to its `await tf.loadGraphModel(APP.path)`. -/
  | runModel
  /-- The promise of `tf.loadGraphModel` is fulfilled; `warm_up_throws` tells
  whether the warm-up call `APP.model.predict(tf.zeros([1, 1, 1, 3])).dispose()`
  throws. -/
  | load_fulfilled (warm_up_throws : Bool)
  /-- The promise of `tf.loadGraphModel` is rejected. -/
  | load_rejected
  deriving DecidableEq, Repr

/-- The page as the script finds it: no model, nothing pending, `predict`
never invoked; what the document shows at first is left open. -/
def Page.start (src displayed : Bool) : Page :=
  { model := false, loading := false, src := src, displayed := displayed, timers := 0,
    predicts := [] }

/-- One event on the page. -/
def Page.step (s : Page) : PageEvent → Page
  | PageEvent.src_assigned => { s with src := true }
  | PageEvent.onload =>
    -- `d-none` is removed and `d-block` added; `predict` is scheduled only `if (APP.model)`
    if s.model then { s with displayed := true, timers := s.timers + 1 }
    else { s with displayed := true }
  | PageEvent.timeout =>
    if 0 < s.timers then { s with timers := s.timers - 1, predicts := s.predicts ++ [s.model] }
    else s
  | PageEvent.runModel => { s with loading := true }
  | PageEvent.load_fulfilled warm_up_throws =>
    if s.loading then
      -- `APP.model = await tf.loadGraphModel(APP.path)`, then the warm-up, then the
      -- deferred prediction `if (APP.source.src && ... display !== 'none')`
      if !warm_up_throws && s.src && s.displayed then
        { s with model := true, loading := false, predicts := s.predicts ++ [true] }
      else { s with model := true, loading := false }
    else s
  | PageEvent.load_rejected =>
    if s.loading then { s with loading := false } else s

/-- A sequence of events, from the state `s`. -/
def Page.run (s : Page) (events : List PageEvent) : Page :=
  events.foldl Page.step s

/-- The invariant of the page: `predict` was only ever invoked with
`APP.model` set, and a timer can only be pending once `APP.model` is set. -/
def Page.safe (s : Page) : Prop :=
  (∀ b ∈ s.predicts, b = true) ∧ (0 < s.timers → s.model = true)

/-! ## Double precision -/

/-- Rounding to the nearest integer, a tie going to the even neighbour. -/
def round_half_even (q : ℚ) : ℤ :=
  if q - (⌊q⌋ : ℚ) < 1 / 2 then ⌊q⌋
  else if 1 / 2 < q - (⌊q⌋ : ℚ) then ⌊q⌋ + 1
  else if ⌊q⌋ % 2 = 0 then ⌊q⌋ else ⌊q⌋ + 1

/-- The gap between the doubles around `x`: with `2 ^ e <= |x| < 2 ^ (e + 1)`
it is `2 ^ (e - 52)`, a double holding 53 significant bits. -/
def Double_ulp (x : ℚ) : ℚ := (2 : ℚ) ^ (Int.log 2 |x| - 52)

/-- The double (IEEE 754 binary64) nearest to the real `x`, a tie going to the
even significand: the result of a JavaScript arithmetic operation whose exact
value is `x`.  The limits of the exponent are not modelled; the values met
here lie far inside them. -/
def Double_round (x : ℚ) : ℚ :=
  if x = 0 then 0 else (round_half_even (x / Double_ulp x) : ℚ) * Double_ulp x

/-- The `pad` constant of `predict` as a JavaScript engine computes it: the
quotient and the product are each rounded to a double.  The difference
`w - h` of two integers below `2 ^ 53` is exact. -/
def predict_pad_double (w h : ℕ) : ℤ :=
  Math_round (Double_round
    (Double_round (Math_abs ((w : ℚ) - (h : ℚ)) / Math_max (w : ℚ) (h : ℚ)) * (APP_size : ℚ)))

/-- The width and height `resizeImage` gives its canvas as a JavaScript engine
computes them: the quotient `maxDimension / width` is rounded to a double, and
so is its product with `height`, before `Math.round`. -/
def resizeImage_dims_double (width height maxDimension : ℕ) : ℤ × ℤ :=
  if width > maxDimension ∨ height > maxDimension then
    if width > height then
      ((maxDimension : ℤ),
        Math_round (Double_round ((height : ℚ) * Double_round ((maxDimension : ℚ) / (width : ℚ)))))
    else
      (Math_round (Double_round ((width : ℚ) * Double_round ((maxDimension : ℚ) / (height : ℚ)))),
        (maxDimension : ℤ))
  else
    ((width : ℤ), (height : ℤ))

/-! ## Rounding and the padding fraction -/

theorem Math_round_le (x : ℚ) : (Math_round x : ℚ) ≤ x + 1 / 2 := by
  unfold Math_round
  exact Int.floor_le _

theorem Math_round_gt (x : ℚ) : x - 1 / 2 < (Math_round x : ℚ) := by
  unfold Math_round
  have h := Int.lt_floor_add_one (x + 1 / 2)
  linarith

theorem Math_round_abs_sub_le (x : ℚ) : |(Math_round x : ℚ) - x| ≤ 1 / 2 := by
  have h1 := Math_round_le x
  have h2 := Math_round_gt x
  rw [abs_le]
  constructor <;> linarith

theorem Math_round_nonneg {x : ℚ} (hx : 0 ≤ x) : 0 ≤ Math_round x := by
  unfold Math_round
  exact Int.floor_nonneg.mpr (by linarith)

theorem Math_round_zero : Math_round 0 = 0 := by
  unfold Math_round
  rw [Int.floor_eq_iff]
  norm_num

theorem predict_pad_eq (w h : ℕ) :
    predict_pad w h = Math_round (predict_pad_fraction w h * (APP_size : ℚ)) := rfl

theorem predict_pad_fraction_eq (w h : ℕ) :
    predict_pad_fraction w h
      = (((max w h - min w h : ℕ) : ℚ)) / ((max w h : ℕ) : ℚ) := by
  unfold predict_pad_fraction Math_abs Math_max
  rw [Nat.cast_sub (le_trans (min_le_left w h) (le_max_left w h)), Nat.cast_max, Nat.cast_min,
    max_sub_min_eq_abs']

theorem predict_pad_fraction_nonneg (w h : ℕ) : 0 ≤ predict_pad_fraction w h := by
  rw [predict_pad_fraction_eq]
  positivity

theorem predict_pad_fraction_self (d : ℕ) : predict_pad_fraction d d = 0 := by
  simp [predict_pad_fraction, Math_abs]

theorem predict_pad_fraction_eq_one_sub (w h : ℕ) (hw : 0 < w) :
    predict_pad_fraction w h = 1 - ((min w h : ℕ) : ℚ) / ((max w h : ℕ) : ℚ) := by
  have hM : (0 : ℚ) < ((max w h : ℕ) : ℚ) := by
    exact_mod_cast lt_of_lt_of_le hw (le_max_left w h)
  rw [predict_pad_fraction_eq, Nat.cast_sub (le_trans (min_le_left w h) (le_max_left w h))]
  field_simp

theorem predict_pad_nonneg (w h : ℕ) : 0 ≤ predict_pad w h := by
  rw [predict_pad_eq]
  exact Math_round_nonneg (mul_nonneg (predict_pad_fraction_nonneg w h) (by positivity))

theorem predict_pad_self (d : ℕ) : predict_pad d d = 0 := by
  rw [predict_pad_eq, predict_pad_fraction_self, zero_mul, Math_round_zero]

theorem predict_pad_fraction_lt_one (w h : ℕ) (hw : 0 < w) (hh : 0 < h) :
    predict_pad_fraction w h < 1 := by
  have hM : (0 : ℚ) < ((max w h : ℕ) : ℚ) := by
    exact_mod_cast lt_of_lt_of_le hw (le_max_left w h)
  have hm : (0 : ℚ) < ((min w h : ℕ) : ℚ) := by
    exact_mod_cast lt_min hw hh
  rw [predict_pad_fraction_eq_one_sub w h hw]
  have : 0 < ((min w h : ℕ) : ℚ) / ((max w h : ℕ) : ℚ) := div_pos hm hM
  linarith

theorem normalize_pad_of_gt {d0 d1 : ℕ} (h : d0 > d1) :
    normalize_pad [d0, d1, 3] = [(0, 0), (d0 - d1, 0), (0, 0)] := by
  simp [normalize_pad, h]

theorem normalize_pad_of_le {d0 d1 : ℕ} (h : d0 ≤ d1) :
    normalize_pad [d0, d1, 3] = [(d1 - d0, 0), (0, 0), (0, 0)] := by
  simp [normalize_pad, Nat.not_lt.mpr h]

theorem predict_slice_of_gt {d0 d1 : ℕ} (h : d0 > d1) :
    predict_slice d0 d1 = [0, predict_pad d0 d1, 0] := by
  simp [predict_slice, h]

theorem predict_slice_of_le {d0 d1 : ℕ} (h : d0 ≤ d1) :
    predict_slice d0 d1 = [predict_pad d0 d1, 0, 0] := by
  simp [predict_slice, Nat.not_lt.mpr h]

theorem tf_slice_axis_pad_axis {α : Type} (fill : α) (k : ℕ) (xs : List α) :
    tf_slice_axis (k : ℤ) (tf_pad_axis fill (k, 0) xs) = xs := by
  simp [tf_slice_axis, tf_pad_axis, List.drop_append_eq_append_drop]

theorem tf_slice_shape_rank3 (a b c : ℕ) (x y z : ℤ) :
    tf_slice_shape [a, b, c] [x, y, z] = [(a : ℤ) - x, (b : ℤ) - y, (c : ℤ) - z] := by
  simp [tf_slice_shape, List.enum, List.enumFrom]

/-! ## The crop of `predict` against the padding of `normalize` -/

/-- C1: for an input of shape `[d0, d1, 3]` with positive `d0`, `d1`, an axis
on which the slice of `predict` begins at a non-zero offset is the axis
`normalize` padded, the shorter of the two, and its offset is `pad`; an axis
`normalize` padded is the one the slice begins at `pad`; the padding of every
axis is leading only, so that a slice beginning at the padded amount removes
exactly the filler; and for `d0 = d1` nothing is padded and nothing cropped. -/
theorem predict_slice_axis_eq_normalize_pad_axis (model : List ℕ → List ℕ) (d0 d1 : ℕ)
    (_hd0 : 0 < d0) (_hd1 : 0 < d1) :
    (∀ i, i < 3 → (predict_shape model [d0, d1, 3]).slice.getD i 0 ≠ 0 →
      (predict_shape model [d0, d1, 3]).slice.getD i 0 = (predict_shape model [d0, d1, 3]).pad ∧
      (normalize [d0, d1, 3]).pad.getD i (0, 0) = (max d0 d1 - min d0 d1, 0) ∧
      [d0, d1, 3].getD i 0 = min d0 d1 ∧ min d0 d1 < max d0 d1) ∧
    (∀ i, i < 3 → (normalize [d0, d1, 3]).pad.getD i (0, 0) ≠ (0, 0) →
      (predict_shape model [d0, d1, 3]).slice.getD i 0 = (predict_shape model [d0, d1, 3]).pad ∧
      (normalize [d0, d1, 3]).pad.getD i (0, 0) = (max d0 d1 - min d0 d1, 0) ∧
      [d0, d1, 3].getD i 0 = min d0 d1 ∧ min d0 d1 < max d0 d1) ∧
    (∀ i, i < 3 → ∀ (α : Type) (fill : α) (xs : List α),
      tf_slice_axis ((((normalize [d0, d1, 3]).pad.getD i (0, 0)).1 : ℕ) : ℤ)
        (tf_pad_axis fill ((normalize [d0, d1, 3]).pad.getD i (0, 0)) xs) = xs) ∧
    (d0 = d1 → (normalize [d0, d1, 3]).pad = [(0, 0), (0, 0), (0, 0)] ∧
      (predict_shape model [d0, d1, 3]).slice = [0, 0, 0]) := by
  have hpad : (predict_shape model [d0, d1, 3]).pad = predict_pad d0 d1 := rfl
  have hslice : (predict_shape model [d0, d1, 3]).slice = predict_slice d0 d1 := rfl
  have hnorm : (normalize [d0, d1, 3]).pad = normalize_pad [d0, d1, 3] := rfl
  rw [hpad, hslice, hnorm]
  rcases Nat.lt_or_ge d1 d0 with hgt | hle
  · rw [normalize_pad_of_gt hgt, predict_slice_of_gt hgt, max_eq_left hgt.le, min_eq_right hgt.le]
    refine ⟨?_, ?_, ?_, ?_⟩
    · intro i hi hne
      interval_cases i <;> simp_all
    · intro i hi hne
      interval_cases i <;> simp_all
    · intro i hi α fill xs
      interval_cases i <;> exact tf_slice_axis_pad_axis fill _ xs
    · intro h
      omega
  · rw [normalize_pad_of_le hle, predict_slice_of_le hle, max_eq_right hle, min_eq_left hle]
    refine ⟨?_, ?_, ?_, ?_⟩
    · intro i hi hne
      interval_cases i
      · have hlt : d0 < d1 := by
          rcases Nat.lt_or_ge d0 d1 with h | h
          · exact h
          · have : d0 = d1 := le_antisymm hle h
            subst this
            simp [predict_pad_self] at hne
        simp [hlt]
      · simp at hne
      · simp at hne
    · intro i hi hne
      interval_cases i
      · have hlt : d0 < d1 := by
          simp at hne
          omega
        simp [hlt]
      · simp at hne
      · simp at hne
    · intro i hi α fill xs
      interval_cases i <;> exact tf_slice_axis_pad_axis fill _ xs
    · intro h
      subst h
      simp [predict_pad_self]

theorem predict_slice_axis_eq_normalize_pad_axis_witness :
    (predict_shape id [600, 800, 3]).slice = [150, 0, 0] ∧
    (normalize [600, 800, 3]).pad = [(200, 0), (0, 0), (0, 0)] ∧
    (predict_shape id [600, 800, 3]).slice.getD 0 0 = (predict_shape id [600, 800, 3]).pad ∧
    (normalize [600, 800, 3]).pad.getD 0 (0, 0) = (max 600 800 - min 600 800, 0) ∧
    [600, 800, 3].getD 0 0 = min 600 800 ∧ min 600 800 < max 600 800 := by
  have hs : (predict_shape id [600, 800, 3]).slice = [150, 0, 0] := by
    norm_num [predict_shape, predict_slice, predict_pad, Math_round, Math_abs, Math_max, APP_size]
  have hp : (normalize [600, 800, 3]).pad = [(200, 0), (0, 0), (0, 0)] := by
    simp [normalize, normalize_pad]
  refine ⟨hs, hp, ?_⟩
  exact (predict_slice_axis_eq_normalize_pad_axis id 600 800 (by decide) (by decide)).1 0
    (by decide) (by rw [hs]; decide)

/-- C2, as stated, fails: an image 800 wide and 600 high has the shape
`[600, 800, 3]`, and the slice of `predict` begins at 150 on axis 0, the
height axis, and at 0 on the width axis. -/
theorem predict_slice_landscape_not_width_axis :
    (800 : ℕ) > 600 ∧ (predict id 800 600).shape = [600, 800, 3] ∧
    (predict id 800 600).slice = [150, 0, 0] ∧
    ¬ ((predict id 800 600).slice = [0, (predict id 800 600).pad, 0]) := by
  have hs : (predict id 800 600).slice = [150, 0, 0] := by
    norm_num [predict, fromPixels_shape, predict_shape, predict_slice, predict_pad, Math_round,
      Math_abs, Math_max, APP_size]
  refine ⟨by decide, rfl, hs, ?_⟩
  rw [hs]
  decide

/-- C2, amended: for an image of positive width and height, whose shape is
`[height, width, 3]`, the slice of `predict` begins at `pad` on the height
axis (axis 0) when the width is at least the height, and on the width axis
(axis 1) when the height is greater than the width. -/
theorem predict_slice_axis_of_image (model : List ℕ → List ℕ) (width height : ℕ)
    (_hw : 0 < width) (_hh : 0 < height) :
    (predict model width height).shape = [height, width, 3] ∧
    (width ≥ height →
      (predict model width height).slice = [(predict model width height).pad, 0, 0]) ∧
    (height > width →
      (predict model width height).slice = [0, (predict model width height).pad, 0]) := by
  refine ⟨rfl, ?_, ?_⟩
  · intro h
    exact predict_slice_of_le h
  · intro h
    exact predict_slice_of_gt h

theorem predict_slice_axis_of_image_witness :
    (predict id 800 600).slice = [(predict id 800 600).pad, 0, 0] :=
  (predict_slice_axis_of_image id 800 600 (by decide) (by decide)).2.1 (by decide)

/-- C3: for an input of shape `[d0, d1, 3]` with positive `d0`, `d1`, the
image after the pad step of `normalize` has the shape
`[max d0 d1, max d0 d1, 3]`, and the longer axis and the channel axis get no
padding. -/
theorem normalize_padded_is_square (d0 d1 : ℕ) (_hd0 : 0 < d0) (_hd1 : 0 < d1) :
    (normalize [d0, d1, 3]).padded = [max d0 d1, max d0 d1, 3] ∧
    (d0 ≥ d1 → (normalize [d0, d1, 3]).pad.getD 0 (0, 0) = (0, 0)) ∧
    (d1 ≥ d0 → (normalize [d0, d1, 3]).pad.getD 1 (0, 0) = (0, 0)) ∧
    (normalize [d0, d1, 3]).pad.getD 2 (0, 0) = (0, 0) := by
  have hnorm : (normalize [d0, d1, 3]).pad = normalize_pad [d0, d1, 3] := rfl
  have hpadded : (normalize [d0, d1, 3]).padded
      = tf_pad_shape [d0, d1, 3] (normalize_pad [d0, d1, 3]) := rfl
  rw [hnorm, hpadded]
  rcases Nat.lt_or_ge d1 d0 with hgt | hle
  · rw [normalize_pad_of_gt hgt, max_eq_left hgt.le]
    refine ⟨?_, ?_, ?_, ?_⟩
    · simp only [tf_pad_shape, List.zipWith_cons_cons, List.zipWith_nil_left, zero_add, add_zero]
      congr 2
      omega
    · intro _
      rfl
    · intro h
      omega
    · rfl
  · rw [normalize_pad_of_le hle, max_eq_right hle]
    refine ⟨?_, ?_, ?_, ?_⟩
    · simp only [tf_pad_shape, List.zipWith_cons_cons, List.zipWith_nil_left, zero_add, add_zero]
      congr 1
      omega
    · intro h
      have : d0 = d1 := le_antisymm hle h
      subst this
      simp
    · intro _
      rfl
    · rfl

theorem normalize_padded_is_square_witness :
    (normalize [600, 800, 3]).padded = [max 600 800, max 600 800, 3] :=
  (normalize_padded_is_square 600 800 (by decide) (by decide)).1

theorem predict_pad_le (w h : ℕ) (hw : 0 < w) (hh : 0 < h) :
    predict_pad w h ≤ (APP_size : ℤ) := by
  have hf := predict_pad_fraction_lt_one w h hw hh
  have hS : (0 : ℚ) < (APP_size : ℚ) := by norm_num [APP_size]
  have hx : predict_pad_fraction w h * (APP_size : ℚ) < (APP_size : ℚ) := by nlinarith
  have hr := Math_round_le (predict_pad_fraction w h * (APP_size : ℚ))
  rw [← predict_pad_eq] at hr
  have hlt : ((predict_pad w h : ℤ) : ℚ) < ((APP_size : ℤ) : ℚ) + 1 := by
    push_cast
    linarith
  have : predict_pad w h < (APP_size : ℤ) + 1 := by exact_mod_cast hlt
  omega

/-- C5: for an input of shape `[d0, d1, 3]` with positive `d0`, `d1` and a
model whose result has the shape `[1, 600, 600, 3]` of its input, the image
`predict` hands to `draw` has the extent 600 on the longer axis and
`600 - pad` on the shorter one, and `(600 - pad) / 600` differs from
`min(d0, d1) / max(d0, d1)` by at most `1 / (2 * 600)`. -/
theorem predict_img_out_extents (model : List ℕ → List ℕ) (d0 d1 : ℕ)
    (hd0 : 0 < d0) (hd1 : 0 < d1)
    (hmodel : model [1, APP_size, APP_size, 3] = [1, APP_size, APP_size, 3]) :
    (d0 > d1 → (predict_shape model [d0, d1, 3]).img_out
      = [600, 600 - (predict_shape model [d0, d1, 3]).pad, 3]) ∧
    (d0 < d1 → (predict_shape model [d0, d1, 3]).img_out
      = [600 - (predict_shape model [d0, d1, 3]).pad, 600, 3]) ∧
    (d0 = d1 → (predict_shape model [d0, d1, 3]).img_out = [600, 600, 3]) ∧
    0 ≤ 600 - (predict_shape model [d0, d1, 3]).pad ∧
    |((600 - (predict_shape model [d0, d1, 3]).pad : ℤ) : ℚ) / 600
        - ((min d0 d1 : ℕ) : ℚ) / ((max d0 d1 : ℕ) : ℚ)| ≤ 1 / (2 * 600) := by
  have hpad : (predict_shape model [d0, d1, 3]).pad = predict_pad d0 d1 := rfl
  have hout : (predict_shape model [d0, d1, 3]).img_out
      = tf_slice_shape [600, 600, 3] (predict_slice d0 d1) := by
    show tf_slice_shape (tf_squeeze_shape (model [1, APP_size, APP_size, 3])) _ = _
    rw [hmodel]
    rfl
  rw [hpad, hout]
  refine ⟨?_, ?_, ?_, ?_, ?_⟩
  · intro h
    rw [predict_slice_of_gt h, tf_slice_shape_rank3]
    simp
  · intro h
    rw [predict_slice_of_le h.le, tf_slice_shape_rank3]
    simp
  · intro h
    subst h
    rw [predict_slice_of_le le_rfl, predict_pad_self, tf_slice_shape_rank3]
    simp
  · have h := predict_pad_le d0 d1 hd0 hd1
    have hS : ((APP_size : ℕ) : ℤ) = 600 := by norm_num [APP_size]
    omega
  · have h := Math_round_abs_sub_le (predict_pad_fraction d0 d1 * (APP_size : ℚ))
    rw [← predict_pad_eq, predict_pad_fraction_eq_one_sub d0 d1 hd0] at h
    have hS : ((APP_size : ℕ) : ℚ) = 600 := by norm_num [APP_size]
    rw [hS] at h
    have heq : ((600 - predict_pad d0 d1 : ℤ) : ℚ) / 600
        - ((min d0 d1 : ℕ) : ℚ) / ((max d0 d1 : ℕ) : ℚ)
        = - (((predict_pad d0 d1 : ℤ) : ℚ)
            - (1 - ((min d0 d1 : ℕ) : ℚ) / ((max d0 d1 : ℕ) : ℚ)) * 600) / 600 := by
      push_cast
      ring
    rw [heq, abs_div, abs_neg]
    rw [div_le_iff₀ (by norm_num)]
    have hhalf : (1 : ℚ) / (2 * 600) * |(600 : ℚ)| = 1 / 2 := by
      rw [abs_of_pos (by norm_num)]
      norm_num
    rw [hhalf]
    exact h

theorem predict_img_out_extents_witness :
    (predict_shape id [600, 800, 3]).img_out
      = [600 - (predict_shape id [600, 800, 3]).pad, 600, 3] :=
  (predict_img_out_extents id 600 800 (by decide) (by decide) rfl).2.1 (by decide)

/-! ## Concrete scenarios -/

/-- C6: an image 800 wide and 600 high, of shape `[600, 800, 3]`, is padded
by `normalize` to `[800, 800, 3]`; its padding fraction is 0.25, the `pad` of
`predict` is `round(0.25 * 600) = 150`, and with an identity model the image
left after the slice has the shape `[450, 600, 3]`: 600 wide and 450 high. -/
theorem predict_landscape_800_600 :
    fromPixels_shape 800 600 = [600, 800, 3] ∧
    (normalize (fromPixels_shape 800 600)).padded = [800, 800, 3] ∧
    (predict id 800 600).input = [1, 600, 600, 3] ∧
    predict_pad_fraction 600 800 = 0.25 ∧
    Math_round (0.25 * 600) = 150 ∧
    (predict id 800 600).pad = 150 ∧
    (predict id 800 600).slice = [150, 0, 0] ∧
    (predict id 800 600).img_out = [450, 600, 3] := by
  have hf : predict_pad_fraction 600 800 = 0.25 := by
    norm_num [predict_pad_fraction, Math_abs, Math_max]
  have hr : Math_round (0.25 * 600) = 150 := by
    norm_num [Math_round]
  have hp : predict_pad 600 800 = 150 := by
    rw [predict_pad_eq, hf]
    norm_num [APP_size, Math_round]
  have hs : predict_slice 600 800 = [150, 0, 0] := by
    rw [predict_slice_of_le (by decide), hp]
  refine ⟨rfl, by decide, rfl, hf, hr, hp, hs, ?_⟩
  show tf_slice_shape [600, 600, 3] (predict_slice 600 800) = _
  rw [hs]
  decide

/-- C7: an image 600 wide and 800 high, of shape `[800, 600, 3]`, is padded
by `normalize` to `[800, 800, 3]`; its padding fraction is 0.25, the `pad` of
`predict` is 150, and with an identity model the image left after the slice
has the shape `[600, 450, 3]`: 450 wide and 600 high. -/
theorem predict_portrait_600_800 :
    fromPixels_shape 600 800 = [800, 600, 3] ∧
    (normalize (fromPixels_shape 600 800)).padded = [800, 800, 3] ∧
    (predict id 600 800).input = [1, 600, 600, 3] ∧
    predict_pad_fraction 800 600 = 0.25 ∧
    (predict id 600 800).pad = 150 ∧
    (predict id 600 800).slice = [0, 150, 0] ∧
    (predict id 600 800).img_out = [600, 450, 3] := by
  have hf : predict_pad_fraction 800 600 = 0.25 := by
    norm_num [predict_pad_fraction, Math_abs, Math_max]
  have hp : predict_pad 800 600 = 150 := by
    rw [predict_pad_eq, hf]
    norm_num [APP_size, Math_round]
  have hs : predict_slice 800 600 = [0, 150, 0] := by
    rw [predict_slice_of_gt (by decide), hp]
  refine ⟨rfl, by decide, rfl, hf, hp, hs, ?_⟩
  show tf_slice_shape [600, 600, 3] (predict_slice 800 600) = _
  rw [hs]
  decide

/-- C8: for a square input, of shape `[d, d, 3]` with `d > 0`, `normalize`
adds no padding, the padding fraction is 0, the `pad` of `predict` is 0, its
slice begins at `[0, 0, 0]`, and the whole `600 x 600` output of the model is
kept. -/
theorem predict_square_no_crop (model : List ℕ → List ℕ) (d : ℕ) (_hd : 0 < d)
    (hmodel : model [1, APP_size, APP_size, 3] = [1, APP_size, APP_size, 3]) :
    (normalize [d, d, 3]).pad = [(0, 0), (0, 0), (0, 0)] ∧
    (normalize [d, d, 3]).padded = [d, d, 3] ∧
    predict_pad_fraction d d = 0 ∧
    (predict_shape model [d, d, 3]).pad = 0 ∧
    (predict_shape model [d, d, 3]).slice = [0, 0, 0] ∧
    (predict_shape model [d, d, 3]).img_out = [600, 600, 3] := by
  have hn : normalize_pad [d, d, 3] = [(0, 0), (0, 0), (0, 0)] := by
    rw [normalize_pad_of_le le_rfl, Nat.sub_self]
  have hs : predict_slice d d = [0, 0, 0] := by
    rw [predict_slice_of_le le_rfl, predict_pad_self]
  refine ⟨hn, ?_, predict_pad_fraction_self d, predict_pad_self d, hs, ?_⟩
  · show tf_pad_shape [d, d, 3] (normalize_pad [d, d, 3]) = _
    rw [hn]
    simp [tf_pad_shape]
  · show tf_slice_shape (tf_squeeze_shape (model [1, APP_size, APP_size, 3]))
      (predict_slice d d) = _
    rw [hmodel, hs]
    decide

theorem predict_square_no_crop_witness :
    (predict_shape id [512, 512, 3]).slice = [0, 0, 0] ∧
    (predict_shape id [512, 512, 3]).img_out = [600, 600, 3] :=
  (predict_square_no_crop id 512 (by decide) rfl).2.2.2.2

/-! ## The value maps -/

/-- C9, as stated, fails: the pixel value 255 is normalized to 1, which the
rescale of `predict` leaves at 1, not 255. -/
theorem rescale_of_normalized_255 :
    normalize_value 255 = 1 ∧ denormalize_value (normalize_value 255) = 1 ∧
    denormalize_value (normalize_value 255) ≠ 255 := by
  have h : normalize_value 255 = 1 := by norm_num [normalize_value]
  have h2 : denormalize_value (normalize_value 255) = 1 := by
    rw [h]
    norm_num [denormalize_value]
  refine ⟨h, h2, ?_⟩
  rw [h2]
  norm_num

/-- C9, amended: for every pixel value `x` in `[0, 255]`, the rescale of
`predict` applied to the normalized value gives `x / 255`. -/
theorem denormalize_normalize (x : ℚ) (h0 : 0 ≤ x) (h1 : x ≤ 255) :
    denormalize_value (normalize_value x) = x / 255 := by
  have h : (normalize_value x - (-1)) / 2 = x / 255 := by
    unfold normalize_value
    norm_num
    ring
  unfold denormalize_value
  rw [h, min_eq_right (by linarith), max_eq_right (by positivity)]

theorem denormalize_normalize_witness :
    denormalize_value (normalize_value 51) = 51 / 255 :=
  denormalize_normalize 51 (by norm_num) (by norm_num)

/-- C10: the value map of `normalize` is `x -> (x - 127.5) / 127.5`; for `x`
in `[0, 255]` its result lies in `[-1, 1]`; it sends 0 to -1 and 255 to 1, and
it is strictly increasing. -/
theorem normalize_value_range (x : ℚ) (h0 : 0 ≤ x) (h1 : x ≤ 255) :
    normalize_value x = (x - 127.5) / 127.5 ∧
    -1 ≤ normalize_value x ∧ normalize_value x ≤ 1 ∧
    normalize_value 0 = -1 ∧ normalize_value 255 = 1 ∧
    StrictMono normalize_value := by
  have hpos : (0 : ℚ) < 127.5 := by norm_num
  refine ⟨rfl, ?_, ?_, ?_, ?_, ?_⟩
  · unfold normalize_value
    rw [le_div_iff₀ hpos]
    norm_num
    linarith
  · unfold normalize_value
    rw [div_le_iff₀ hpos]
    norm_num
    linarith
  · norm_num [normalize_value]
  · norm_num [normalize_value]
  · intro a b hab
    unfold normalize_value
    exact div_lt_div_of_pos_right (by linarith) hpos

theorem normalize_value_range_witness :
    -1 ≤ normalize_value 128 ∧ normalize_value 128 ≤ 1 :=
  ⟨(normalize_value_range 128 (by norm_num) (by norm_num)).2.1,
    (normalize_value_range 128 (by norm_num) (by norm_num)).2.2.1⟩

/-- C11: the rescale `predict` applies to a model output value `v` is
`clip((v - (-1)) / 2, 0, 1)`: its result lies in `[0, 1]` for every `v`, it is
`(v + 1) / 2` for `v` in `[-1, 1]`, 0 for `v < -1` and 1 for `v > 1`. -/
theorem denormalize_value_clip (v : ℚ) :
    denormalize_value v = max 0 (min 1 ((v - (-1)) / 2)) ∧
    0 ≤ denormalize_value v ∧ denormalize_value v ≤ 1 ∧
    (-1 ≤ v → v ≤ 1 → denormalize_value v = (v + 1) / 2) ∧
    (v < -1 → denormalize_value v = 0) ∧
    (1 < v → denormalize_value v = 1) := by
  have hsub : (v - (-1)) / 2 = (v + 1) / 2 := by ring
  unfold denormalize_value
  rw [hsub]
  refine ⟨rfl, le_max_left _ _, max_le (by norm_num) (min_le_left _ _), ?_, ?_, ?_⟩
  · intro h1 h2
    rw [min_eq_right (by linarith), max_eq_right (by linarith)]
  · intro h
    rw [min_eq_right (by linarith), max_eq_left (by linarith)]
  · intro h
    rw [min_eq_left (by linarith)]
    norm_num

theorem denormalize_value_clip_witness :
    denormalize_value (1 / 2) = (1 / 2 + 1) / 2 ∧ denormalize_value (-3) = 0 ∧
    denormalize_value 7 = 1 :=
  ⟨(denormalize_value_clip (1 / 2)).2.2.2.1 (by norm_num) (by norm_num),
    (denormalize_value_clip (-3)).2.2.2.2.1 (by norm_num),
    (denormalize_value_clip 7).2.2.2.2.2 (by norm_num)⟩

/-- C13: for an input of shape `[d0, d1, 3]` the paddings `normalize` builds
are one-sided: the shorter of the first two axes gets `|d0 - d1|` entries
before and none after, and the other axes get none before and none after. -/
theorem normalize_pad_one_sided (d0 d1 : ℕ) :
    (d0 > d1 → (normalize [d0, d1, 3]).pad = [(0, 0), (d0 - d1, 0), (0, 0)]) ∧
    (d0 < d1 → (normalize [d0, d1, 3]).pad = [(d1 - d0, 0), (0, 0), (0, 0)]) ∧
    (d0 = d1 → (normalize [d0, d1, 3]).pad = [(0, 0), (0, 0), (0, 0)]) ∧
    (normalize [d0, d1, 3]).pad.length = 3 ∧
    (∀ p ∈ (normalize [d0, d1, 3]).pad, p.2 = 0) ∧
    (∀ i, i < 3 → [d0, d1, 3].getD i 0 ≠ min d0 d1 ∨ i = 2 →
      (normalize [d0, d1, 3]).pad.getD i (0, 0) = (0, 0)) := by
  have hnorm : (normalize [d0, d1, 3]).pad = normalize_pad [d0, d1, 3] := rfl
  rw [hnorm]
  rcases Nat.lt_or_ge d1 d0 with hgt | hle
  · rw [normalize_pad_of_gt hgt]
    refine ⟨fun _ => rfl, fun h => by omega, fun h => by omega, rfl, ?_, ?_⟩
    · intro p hp
      simp only [List.mem_cons, List.mem_singleton, List.not_mem_nil, or_false] at hp
      rcases hp with h | h | h <;> rw [h]
    · intro i hi hne
      interval_cases i
      · rfl
      · rw [min_eq_right hgt.le] at hne
        simp at hne
      · rfl
  · rw [normalize_pad_of_le hle]
    refine ⟨fun h => by omega, fun _ => rfl, ?_, rfl, ?_, ?_⟩
    · intro h
      subst h
      simp
    · intro p hp
      simp only [List.mem_cons, List.mem_singleton, List.not_mem_nil, or_false] at hp
      rcases hp with h | h | h <;> rw [h]
    · intro i hi hne
      interval_cases i
      · rw [min_eq_left hle] at hne
        simp at hne
      · rfl
      · rfl

theorem normalize_pad_one_sided_witness :
    (normalize [600, 800, 3]).pad = [(800 - 600, 0), (0, 0), (0, 0)] :=
  (normalize_pad_one_sided 600 800).2.1 (by decide)

/-! ## `resizeImage` -/

theorem scaled_le_max {a b m : ℕ} (hb : 0 < b) (hab : a ≤ b) :
    (a : ℚ) * ((m : ℚ) / (b : ℚ)) ≤ (m : ℚ) := by
  have hbq : (0 : ℚ) < (b : ℚ) := by exact_mod_cast hb
  have haq : (a : ℚ) ≤ (b : ℚ) := by exact_mod_cast hab
  have hm : (0 : ℚ) ≤ (m : ℚ) := by positivity
  rw [mul_div_assoc', div_le_iff₀ hbq]
  nlinarith

theorem scaled_le_self {a b m : ℕ} (hb : 0 < b) (hmb : m ≤ b) :
    (a : ℚ) * ((m : ℚ) / (b : ℚ)) ≤ (a : ℚ) := by
  have hbq : (0 : ℚ) < (b : ℚ) := by exact_mod_cast hb
  have hmq : (m : ℚ) ≤ (b : ℚ) := by exact_mod_cast hmb
  have ha : (0 : ℚ) ≤ (a : ℚ) := by positivity
  rw [mul_div_assoc', div_le_iff₀ hbq]
  nlinarith

theorem resizeImage_dims_of_fits {width height maxDimension : ℕ}
    (hw : width ≤ maxDimension) (hh : height ≤ maxDimension) :
    resizeImage_dims width height maxDimension = ((width : ℤ), (height : ℤ)) := by
  unfold resizeImage_dims
  rw [if_neg (by omega)]

theorem resizeImage_dims_of_wide {width height maxDimension : ℕ}
    (hbig : width > maxDimension ∨ height > maxDimension) (hwh : width > height) :
    resizeImage_dims width height maxDimension
      = ((maxDimension : ℤ),
          Math_round ((height : ℚ) * ((maxDimension : ℚ) / (width : ℚ)))) := by
  unfold resizeImage_dims
  rw [if_pos hbig, if_pos hwh]

theorem resizeImage_dims_of_tall {width height maxDimension : ℕ}
    (hbig : width > maxDimension ∨ height > maxDimension) (hwh : width ≤ height) :
    resizeImage_dims width height maxDimension
      = (Math_round ((width : ℚ) * ((maxDimension : ℚ) / (height : ℚ))),
          (maxDimension : ℤ)) := by
  unfold resizeImage_dims
  rw [if_pos hbig, if_neg (by omega)]

/-- C15: in `resizeImage`, for positive `width`, `height`, `maxDimension` with
`max(width, height) > maxDimension`, the resized shorter dimension differs
from `short * maxDimension / long` by at most 1/2. -/
theorem resizeImage_dims_keeps_aspect (width height maxDimension : ℕ)
    (_hw : 0 < width) (_hh : 0 < height) (_hm : 0 < maxDimension)
    (hbig : max width height > maxDimension) :
    (width > height →
      (resizeImage_dims width height maxDimension).1 = (maxDimension : ℤ) ∧
      |(((resizeImage_dims width height maxDimension).2 : ℤ) : ℚ)
          - ((min width height : ℕ) : ℚ) * (maxDimension : ℚ) / ((max width height : ℕ) : ℚ)|
        ≤ 1 / 2) ∧
    (width ≤ height →
      (resizeImage_dims width height maxDimension).2 = (maxDimension : ℤ) ∧
      |(((resizeImage_dims width height maxDimension).1 : ℤ) : ℚ)
          - ((min width height : ℕ) : ℚ) * (maxDimension : ℚ) / ((max width height : ℕ) : ℚ)|
        ≤ 1 / 2) := by
  have hbig' : width > maxDimension ∨ height > maxDimension := by
    rcases le_total width height with h | h
    · rw [max_eq_right h] at hbig
      exact Or.inr hbig
    · rw [max_eq_left h] at hbig
      exact Or.inl hbig
  constructor
  · intro hwh
    rw [resizeImage_dims_of_wide hbig' hwh, min_eq_right hwh.le, max_eq_left hwh.le,
      mul_div_assoc]
    exact ⟨rfl, Math_round_abs_sub_le _⟩
  · intro hwh
    rw [resizeImage_dims_of_tall hbig' hwh, min_eq_left hwh, max_eq_right hwh, mul_div_assoc]
    exact ⟨rfl, Math_round_abs_sub_le _⟩

theorem resizeImage_dims_keeps_aspect_witness :
    (resizeImage_dims 3000 2000 1024).1 = (1024 : ℤ) ∧
    |(((resizeImage_dims 3000 2000 1024).2 : ℤ) : ℚ)
        - ((min 3000 2000 : ℕ) : ℚ) * ((1024 : ℕ) : ℚ) / ((max 3000 2000 : ℕ) : ℚ)| ≤ 1 / 2 :=
  (resizeImage_dims_keeps_aspect 3000 2000 1024 (by decide) (by decide) (by decide)
    (by decide)).1 (by decide)

/-! ## The download name -/

theorem String_lastIndexOf_from_of_not_mem (c : Char) (s : List Char) (i : ℕ) (acc : ℤ)
    (h : c ∉ s) : String_lastIndexOf_from c s i acc = acc := by
  induction s generalizing i acc with
  | nil => rfl
  | cons x xs ih =>
    have hx : x ≠ c := fun e => h (e ▸ List.mem_cons_self x xs)
    have hxs : c ∉ xs := fun e => h (List.mem_cons_of_mem x e)
    rw [String_lastIndexOf_from, if_neg hx]
    exact ih (i + 1) acc hxs

theorem String_lastIndexOf_from_append (c : Char) (stem ext : List Char) (i : ℕ) (acc : ℤ)
    (h : c ∉ ext) :
    String_lastIndexOf_from c (stem ++ c :: ext) i acc = ((i + stem.length : ℕ) : ℤ) := by
  induction stem generalizing i acc with
  | nil =>
    rw [List.nil_append, String_lastIndexOf_from, if_pos rfl,
      String_lastIndexOf_from_of_not_mem c ext (i + 1) _ h]
    rfl
  | cons x xs ih =>
    rw [List.cons_append, String_lastIndexOf_from, ih (i + 1)]
    rw [List.length_cons]
    congr 1
    omega

theorem String_substring_zero (s : List Char) (k : ℕ) (hk : k ≤ s.length) :
    String_substring s 0 (k : ℤ) = s.take k := by
  have hb : (min (max (k : ℤ) 0) (s.length : ℤ)).toNat = k := by
    rw [max_eq_left (by positivity), min_eq_left (by exact_mod_cast hk)]
    rfl
  have ha : (min (max (0 : ℤ) 0) (s.length : ℤ)).toNat = 0 := by
    rw [max_self, min_eq_left (by positivity)]
    rfl
  unfold String_substring
  simp only [ha, hb]
  simp

/-- C16: the download name `processImage` sets is `"Cartoonized_" + stem +
".jpg"`: `stem` is the file name itself when it holds no `.`, and what stands
before the last `.` otherwise, so that an extension `ext` without a `.` is
stripped from `stem + "." + ext`; the download name always ends in `.jpg`. -/
theorem processImage_downloadName_spec (name : List Char) :
    ('.' ∉ name →
      processImage_downloadName name = "Cartoonized_".toList ++ name ++ ".jpg".toList) ∧
    (∀ stem ext : List Char, name = stem ++ '.' :: ext → '.' ∉ ext →
      processImage_downloadName name = "Cartoonized_".toList ++ stem ++ ".jpg".toList) ∧
    ".jpg".toList <:+ processImage_downloadName name ∧
    "Cartoonized_".toList <+: processImage_downloadName name := by
  refine ⟨?_, ?_, ?_, ?_⟩
  · intro h
    unfold processImage_downloadName
    simp only [String_lastIndexOf, String_lastIndexOf_from_of_not_mem '.' name 0 (-1) h]
    simp
  · intro stem ext hname hext
    subst hname
    have hidx : String_lastIndexOf (stem ++ '.' :: ext) '.' = (stem.length : ℤ) := by
      rw [String_lastIndexOf, String_lastIndexOf_from_append '.' stem ext 0 (-1) hext,
        Nat.zero_add]
    have hne : (stem.length : ℤ) ≠ -1 := by omega
    have hsub : String_substring (stem ++ '.' :: ext) 0 (stem.length : ℤ) = stem := by
      rw [String_substring_zero _ _ (by simp)]
      simp
    unfold processImage_downloadName
    simp only [hidx, if_pos hne, hsub]
  · unfold processImage_downloadName
    exact List.suffix_append _ _
  · unfold processImage_downloadName
    rw [List.append_assoc]
    exact List.prefix_append _ _

theorem processImage_downloadName_spec_witness :
    processImage_downloadName "holiday.photo.png".toList
      = "Cartoonized_".toList ++ "holiday.photo".toList ++ ".jpg".toList :=
  (processImage_downloadName_spec "holiday.photo.png".toList).2.1
    "holiday.photo".toList "png".toList (by decide) (by decide)

/-! ## The file handlers -/

/-- C17, evaluated where it fails: a file of type
`application/x-apple-diskimage`, which does not begin with `image/`, passes
the test `file.type.match('image.*')` of the three handlers of `main.js` and
of the callback of `model.js`: it is previewed and handed to `processImage`,
and no error is alerted. -/
theorem handlers_accept_diskimage :
    ¬ ("image/".toList <+: "application/x-apple-diskimage".toList) ∧
    String_match_image "application/x-apple-diskimage".toList = true ∧
    fileInput_change [File.mk "backup.dmg".toList "application/x-apple-diskimage".toList]
      = [HandlerAction.preview
            (File.mk "backup.dmg".toList "application/x-apple-diskimage".toList),
          HandlerAction.processImage
            (File.mk "backup.dmg".toList "application/x-apple-diskimage".toList)] ∧
    handleDrop [File.mk "backup.dmg".toList "application/x-apple-diskimage".toList]
      = [HandlerAction.preview
            (File.mk "backup.dmg".toList "application/x-apple-diskimage".toList),
          HandlerAction.processImage
            (File.mk "backup.dmg".toList "application/x-apple-diskimage".toList)] ∧
    cameraInput_change [File.mk "backup.dmg".toList "application/x-apple-diskimage".toList]
      = [HandlerAction.preview
            (File.mk "backup.dmg".toList "application/x-apple-diskimage".toList),
          HandlerAction.processImage
            (File.mk "backup.dmg".toList "application/x-apple-diskimage".toList)] ∧
    model_file_change (File.mk "backup.dmg".toList "application/x-apple-diskimage".toList)
      = [HandlerAction.preview
            (File.mk "backup.dmg".toList "application/x-apple-diskimage".toList)] := by
  have hm : String_match_image "application/x-apple-diskimage".toList = true := by decide
  refine ⟨by decide, hm, ?_, ?_, ?_, ?_⟩
  · simp only [fileInput_change, hm, Bool.not_true]
    rfl
  · simp only [handleDrop, hm, Bool.not_true]
    rfl
  · simp only [cameraInput_change, hm, Bool.not_true]
    rfl
  · simp only [model_file_change, hm, Bool.not_true]
    rfl

/-! ## Backend selection -/

/-- C18, as stated, fails: when the wasm backend fails to initialise, its
promise is fulfilled with `false`; `runModel` is started all the same, right
after the failed backend, and webgl, which would succeed, is never tried.
When all three backends fail in this way `runModel` is started too. -/
theorem startup_ignores_failed_backend :
    startup (Settled.fulfilled false) (Settled.fulfilled true) (Settled.fulfilled true)
      = [StartupEvent.setBackend Backend.wasm, StartupEvent.runModel] ∧
    StartupEvent.runModel
      ∈ startup (Settled.fulfilled false) (Settled.fulfilled false) (Settled.fulfilled false) := by
  constructor
  · rfl
  · decide

/-- C18, amended: whatever way the three `tf.setBackend` promises settle, the
backends are tried in the order wasm, webgl, cpu; `runModel` is started at
most once, right after the first backend whose promise is fulfilled, be it
with `true` or with `false`, and nothing is tried after it; a later backend
is tried only after a rejection, and when all three promises are rejected
`runModel` is never started. -/
theorem startup_runs_model_once (wasm webgl cpu : Settled Bool) :
    backends_tried (startup wasm webgl cpu) <+: [Backend.wasm, Backend.webgl, Backend.cpu] ∧
    (startup wasm webgl cpu).count StartupEvent.runModel ≤ 1 ∧
    (∀ v, wasm = Settled.fulfilled v →
      startup wasm webgl cpu = [StartupEvent.setBackend Backend.wasm, StartupEvent.runModel]) ∧
    (wasm = Settled.rejected → ∀ v, webgl = Settled.fulfilled v →
      startup wasm webgl cpu
        = [StartupEvent.setBackend Backend.wasm,
            StartupEvent.console_error "WASM backend failed, falling back to WebGL",
            StartupEvent.setBackend Backend.webgl, StartupEvent.runModel]) ∧
    (wasm = Settled.rejected → webgl = Settled.rejected → ∀ v, cpu = Settled.fulfilled v →
      startup wasm webgl cpu
        = [StartupEvent.setBackend Backend.wasm,
            StartupEvent.console_error "WASM backend failed, falling back to WebGL",
            StartupEvent.setBackend Backend.webgl,
            StartupEvent.console_error "WebGL failed, falling back to CPU",
            StartupEvent.setBackend Backend.cpu, StartupEvent.runModel]) ∧
    (wasm = Settled.rejected → webgl = Settled.rejected → cpu = Settled.rejected →
      StartupEvent.runModel ∉ startup wasm webgl cpu ∧
      backends_tried (startup wasm webgl cpu) = [Backend.wasm, Backend.webgl, Backend.cpu]) ∧
    ((startup wasm webgl cpu).count StartupEvent.runModel = 1 ↔
      (∃ v, wasm = Settled.fulfilled v) ∨ (∃ v, webgl = Settled.fulfilled v) ∨
        (∃ v, cpu = Settled.fulfilled v)) := by
  rcases wasm with ⟨_ | _⟩ | _ <;> rcases webgl with ⟨_ | _⟩ | _ <;>
    rcases cpu with ⟨_ | _⟩ | _ <;>
    refine ⟨by decide, by decide, ?_, ?_, ?_, ?_, ?_⟩ <;>
    intros <;>
    first
      | rfl
      | contradiction
      | (refine ⟨?_, rfl⟩; decide)
      | decide

theorem startup_runs_model_once_witness :
    startup Settled.rejected (Settled.fulfilled false) Settled.rejected
      = [StartupEvent.setBackend Backend.wasm,
          StartupEvent.console_error "WASM backend failed, falling back to WebGL",
          StartupEvent.setBackend Backend.webgl, StartupEvent.runModel] :=
  (startup_runs_model_once Settled.rejected (Settled.fulfilled false) Settled.rejected).2.2.2.1
    rfl false rfl

/-! ## Prediction waits for the model -/

theorem Page.safe_start (src displayed : Bool) : (Page.start src displayed).safe := by
  constructor
  · intro b hb
    simp [Page.start] at hb
  · intro h
    simp [Page.start] at h

theorem Page.safe_step (s : Page) (e : PageEvent) (h : s.safe) : (s.step e).safe := by
  obtain ⟨hp, ht⟩ := h
  cases e with
  | src_assigned => exact ⟨hp, ht⟩
  | onload =>
    simp only [Page.step]
    by_cases hm : s.model = true
    · rw [if_pos hm]
      exact ⟨hp, fun _ => hm⟩
    · rw [if_neg hm]
      exact ⟨hp, ht⟩
  | timeout =>
    simp only [Page.step]
    by_cases h0 : 0 < s.timers
    · rw [if_pos h0]
      refine ⟨?_, fun _ => ht h0⟩
      intro b hb
      rcases List.mem_append.mp hb with hb | hb
      · exact hp b hb
      · rw [List.mem_singleton.mp hb]
        exact ht h0
    · rw [if_neg h0]
      exact ⟨hp, ht⟩
  | runModel => exact ⟨hp, ht⟩
  | load_fulfilled w =>
    simp only [Page.step]
    by_cases hl : s.loading = true
    · rw [if_pos hl]
      by_cases hc : (!w && s.src && s.displayed) = true
      · rw [if_pos hc]
        refine ⟨?_, fun _ => rfl⟩
        intro b hb
        rcases List.mem_append.mp hb with hb | hb
        · exact hp b hb
        · exact List.mem_singleton.mp hb
      · rw [if_neg hc]
        exact ⟨hp, fun _ => rfl⟩
    · rw [if_neg hl]
      exact ⟨hp, ht⟩
  | load_rejected =>
    simp only [Page.step]
    by_cases hl : s.loading = true
    · rw [if_pos hl]
      exact ⟨hp, ht⟩
    · rw [if_neg hl]
      exact ⟨hp, ht⟩

theorem Page.safe_run (s : Page) (events : List PageEvent) (h : s.safe) :
    (s.run events).safe := by
  induction events generalizing s with
  | nil => exact h
  | cons e es ih => exact ih (s.step e) (Page.safe_step s e h)

/-- What holds of the page whatever events follow in whatever order (sources
assigned, images loaded, timers firing, `runModel` started, the model load
fulfilled or rejected, the warm-up throwing or not): every invocation of
`predict` happens with `APP.model` set.  An image loaded while the model is
still loading schedules nothing, and is predicted when the load is fulfilled
provided the warm-up returns; an image loaded once the model is set is
predicted by the timer of its `onload` handler. -/
theorem predict_only_with_model (src displayed : Bool) (events : List PageEvent) :
    (∀ b ∈ ((Page.start src displayed).run events).predicts, b = true) ∧
    (∀ s : Page, s = (Page.start src displayed).run events → s.model = false →
      s.loading = true →
      (s.run [PageEvent.src_assigned, PageEvent.onload]).predicts = s.predicts ∧
      (s.run [PageEvent.src_assigned, PageEvent.onload]).timers = s.timers ∧
      (s.run [PageEvent.src_assigned, PageEvent.onload,
          PageEvent.load_fulfilled false]).predicts = s.predicts ++ [true] ∧
      (s.run [PageEvent.src_assigned, PageEvent.onload,
          PageEvent.load_fulfilled false]).model = true) ∧
    (∀ s : Page, s = (Page.start src displayed).run events → s.model = true →
      (s.run [PageEvent.src_assigned, PageEvent.onload]).timers = s.timers + 1 ∧
      (s.run [PageEvent.src_assigned, PageEvent.onload, PageEvent.timeout]).predicts
        = s.predicts ++ [true]) := by
  refine ⟨(Page.safe_run _ events (Page.safe_start src displayed)).1, ?_, ?_⟩
  · intro s _ hm hl
    simp [Page.run, Page.step, hm, hl]
  · intro s _ hm
    simp [Page.run, Page.step, hm]

theorem predict_only_with_model_witness :
    ((Page.start false false).run
        [PageEvent.runModel, PageEvent.src_assigned, PageEvent.onload, PageEvent.timeout,
          PageEvent.load_fulfilled false, PageEvent.src_assigned, PageEvent.onload,
          PageEvent.timeout]).predicts = [true, true] ∧
    ∀ b ∈ ((Page.start false false).run
        [PageEvent.runModel, PageEvent.src_assigned, PageEvent.onload, PageEvent.timeout,
          PageEvent.load_fulfilled false, PageEvent.src_assigned, PageEvent.onload,
          PageEvent.timeout]).predicts, b = true :=
  ⟨by decide, (predict_only_with_model false false
      [PageEvent.runModel, PageEvent.src_assigned, PageEvent.onload, PageEvent.timeout,
        PageEvent.load_fulfilled false, PageEvent.src_assigned, PageEvent.onload,
        PageEvent.timeout]).1⟩

/-- C19, evaluated where it fails: an image is loaded while
`tf.loadGraphModel` is pending, the load is then fulfilled and the warm-up
call `APP.model.predict(tf.zeros([1, 1, 1, 3])).dispose()` throws.  Control
goes to the `catch` of `runModel` with `APP.model` set and the deferred
`predict` skipped: the waiting image is not predicted, then or by a later
timer, where the same events with a warm-up that returns predict it. -/
theorem deferred_predict_skipped_when_warm_up_throws :
    (Page.start false false).run
        [PageEvent.runModel, PageEvent.src_assigned, PageEvent.onload,
          PageEvent.load_fulfilled true]
      = { model := true, loading := false, src := true, displayed := true, timers := 0,
          predicts := [] } ∧
    ((Page.start false false).run
        [PageEvent.runModel, PageEvent.src_assigned, PageEvent.onload,
          PageEvent.load_fulfilled true, PageEvent.timeout, PageEvent.timeout]).predicts = [] ∧
    ((Page.start false false).run
        [PageEvent.runModel, PageEvent.src_assigned, PageEvent.onload,
          PageEvent.load_fulfilled false]).predicts = [true] := by
  refine ⟨by decide, by decide, by decide⟩

/-! ## The range of `pad` -/

theorem predict_pad_ge_iff (w h : ℕ) (hw : 0 < w) :
    (APP_size : ℤ) ≤ predict_pad w h ↔ 2 * APP_size * min w h ≤ max w h := by
  have hM : (0 : ℚ) < ((max w h : ℕ) : ℚ) := by
    exact_mod_cast lt_of_lt_of_le hw (le_max_left w h)
  have hS : ((APP_size : ℕ) : ℚ) = 600 := by norm_num [APP_size]
  rw [predict_pad_eq, Math_round, Int.le_floor, predict_pad_fraction_eq_one_sub w h hw]
  have hcast : (((APP_size : ℕ) : ℤ) : ℚ) = 600 := by
    push_cast
    exact hS
  rw [hcast, hS]
  have hiff : (600 : ℚ) ≤ (1 - ((min w h : ℕ) : ℚ) / ((max w h : ℕ) : ℚ)) * 600 + 1 / 2
      ↔ 2 * 600 * ((min w h : ℕ) : ℚ) ≤ ((max w h : ℕ) : ℚ) := by
    have hdiv : ((min w h : ℕ) : ℚ) / ((max w h : ℕ) : ℚ) * 600 ≤ 1 / 2
        ↔ 2 * 600 * ((min w h : ℕ) : ℚ) ≤ ((max w h : ℕ) : ℚ) := by
      rw [div_mul_eq_mul_div, div_le_iff₀ hM]
      constructor <;> intro h' <;> linarith
    rw [← hdiv]
    constructor <;> intro h' <;> linarith
  rw [hiff]
  have hnat : (2 * APP_size * min w h ≤ max w h)
      ↔ (2 * 600 * ((min w h : ℕ) : ℚ) ≤ ((max w h : ℕ) : ℚ)) := by
    have h600 : APP_size = 600 := rfl
    rw [h600]
    constructor
    · intro h'
      exact_mod_cast h'
    · intro h'
      exact_mod_cast h'
  exact hnat.symm

/-- C20: for an input of shape `[d0, d1, 3]` with positive `d0`, `d1`, the
`pad` of `predict` lies in `[0, 600]`, so every offset of the slice lies
within the output; the extent `600 - pad` kept on the cropped axis is 0
exactly when `2 * 600 * min(d0, d1) <= max(d0, d1)`, and at least 1
otherwise. -/
theorem predict_pad_within_output (model : List ℕ → List ℕ) (d0 d1 : ℕ)
    (hd0 : 0 < d0) (hd1 : 0 < d1) :
    0 ≤ (predict_shape model [d0, d1, 3]).pad ∧
    (predict_shape model [d0, d1, 3]).pad ≤ 600 ∧
    (∀ b ∈ (predict_shape model [d0, d1, 3]).slice, 0 ≤ b ∧ b ≤ 600) ∧
    (600 - (predict_shape model [d0, d1, 3]).pad = 0 ↔ 2 * 600 * min d0 d1 ≤ max d0 d1) ∧
    (¬ (2 * 600 * min d0 d1 ≤ max d0 d1) → 1 ≤ 600 - (predict_shape model [d0, d1, 3]).pad) := by
  have hpad : (predict_shape model [d0, d1, 3]).pad = predict_pad d0 d1 := rfl
  have hslice : (predict_shape model [d0, d1, 3]).slice = predict_slice d0 d1 := rfl
  have h0 := predict_pad_nonneg d0 d1
  have h1 : predict_pad d0 d1 ≤ 600 := predict_pad_le d0 d1 hd0 hd1
  have hge := predict_pad_ge_iff d0 d1 hd0
  have hS : ((APP_size : ℕ) : ℤ) = 600 := rfl
  have h600 : APP_size = 600 := rfl
  rw [hS, h600] at hge
  rw [hpad, hslice]
  refine ⟨h0, h1, ?_, ?_, ?_⟩
  · intro b hb
    rcases Nat.lt_or_ge d1 d0 with hgt | hle
    · rw [predict_slice_of_gt hgt] at hb
      simp only [List.mem_cons, List.mem_singleton, List.not_mem_nil, or_false] at hb
      rcases hb with h | h | h <;> rw [h] <;> constructor <;> omega
    · rw [predict_slice_of_le hle] at hb
      simp only [List.mem_cons, List.mem_singleton, List.not_mem_nil, or_false] at hb
      rcases hb with h | h | h <;> rw [h] <;> constructor <;> omega
  · rw [← hge]
    constructor <;> intro h <;> omega
  · intro hn
    rw [← hge] at hn
    omega

theorem predict_pad_within_output_witness :
    600 - (predict_shape id [1, 1200, 3]).pad = 0 ∧
    1 ≤ 600 - (predict_shape id [1, 1199, 3]).pad :=
  ⟨(predict_pad_within_output id 1 1200 (by decide) (by decide)).2.2.2.1.mpr (by decide),
    (predict_pad_within_output id 1 1199 (by decide) (by decide)).2.2.2.2 (by decide)⟩

/-! ## Double precision -/

theorem round_half_even_abs_sub_le (q : ℚ) : |(round_half_even q : ℚ) - q| ≤ 1 / 2 := by
  have h1 := Int.floor_le q
  have h2 := Int.lt_floor_add_one q
  unfold round_half_even
  rw [abs_le]
  split_ifs <;> push_cast <;> constructor <;> linarith

theorem round_half_even_eq_of_lt (q : ℚ) (n : ℤ) (h : |q - (n : ℚ)| < 1 / 2) :
    round_half_even q = n := by
  rw [abs_lt] at h
  obtain ⟨h1, h2⟩ := h
  by_cases hq : (n : ℚ) ≤ q
  · have hf : ⌊q⌋ = n := Int.floor_eq_iff.mpr ⟨hq, by linarith⟩
    unfold round_half_even
    rw [hf, if_pos (by linarith)]
  · have hf : ⌊q⌋ = n - 1 := Int.floor_eq_iff.mpr ⟨by push_cast; linarith, by push_cast; linarith⟩
    unfold round_half_even
    rw [hf, if_neg (by push_cast; linarith), if_pos (by push_cast; linarith)]
    ring

theorem Double_ulp_pos (x : ℚ) : 0 < Double_ulp x := by
  unfold Double_ulp
  positivity

theorem Double_ulp_le {x : ℚ} (hx : x ≠ 0) : Double_ulp x ≤ |x| / 2 ^ 52 := by
  have hpos : 0 < |x| := abs_pos.mpr hx
  have hlog := Int.zpow_log_le_self (b := 2) (by norm_num) hpos
  simp only [Nat.cast_ofNat] at hlog
  unfold Double_ulp
  rw [zpow_sub₀ (by norm_num : (2 : ℚ) ≠ 0)]
  have h52 : (2 : ℚ) ^ (52 : ℤ) = 2 ^ 52 := by norm_cast
  rw [h52]
  exact div_le_div_of_nonneg_right hlog (by positivity)

theorem Double_round_abs_sub_le (x : ℚ) : |Double_round x - x| ≤ |x| / 2 ^ 53 := by
  unfold Double_round
  by_cases hx : x = 0
  · rw [if_pos hx, hx]
    simp
  · rw [if_neg hx]
    have hu := Double_ulp_pos x
    have hle := Double_ulp_le hx
    have hr := round_half_even_abs_sub_le (x / Double_ulp x)
    have heq : (round_half_even (x / Double_ulp x) : ℚ) * Double_ulp x - x
        = ((round_half_even (x / Double_ulp x) : ℚ) - x / Double_ulp x) * Double_ulp x := by
      field_simp
    rw [heq, abs_mul, abs_of_pos hu]
    have h1 : |(round_half_even (x / Double_ulp x) : ℚ) - x / Double_ulp x| * Double_ulp x
        ≤ 1 / 2 * Double_ulp x := mul_le_mul_of_nonneg_right hr hu.le
    have h2 : (1 : ℚ) / 2 * Double_ulp x ≤ 1 / 2 * (|x| / 2 ^ 52) :=
      mul_le_mul_of_nonneg_left hle (by norm_num)
    have h3 : (1 : ℚ) / 2 * (|x| / 2 ^ 52) = |x| / 2 ^ 53 := by ring
    linarith

theorem Double_round_nonneg {x : ℚ} (hx : 0 ≤ x) : 0 ≤ Double_round x := by
  have h := Double_round_abs_sub_le x
  rw [abs_of_nonneg hx, abs_le] at h
  have h2 : x / 2 ^ 53 ≤ x := div_le_self hx (by norm_num)
  linarith [h.1]

theorem Double_round_mul_close (x c : ℚ) (hx : 0 ≤ x) (hc : 0 ≤ c) :
    |Double_round (c * Double_round x) - c * x| ≤ 3 * (c * x) / 2 ^ 53 := by
  have hr := Double_round_abs_sub_le x
  rw [abs_of_nonneg hx] at hr
  have hr0 := Double_round_nonneg hx
  have hy := Double_round_abs_sub_le (c * Double_round x)
  rw [abs_of_nonneg (mul_nonneg hc hr0)] at hy
  rw [abs_le] at hr hy ⊢
  have hcx : 0 ≤ c * x := mul_nonneg hc hx
  have e1 : c * (Double_round x - x) ≤ c * (x / 2 ^ 53) := mul_le_mul_of_nonneg_left hr.2 hc
  have e2 : c * (-(x / 2 ^ 53)) ≤ c * (Double_round x - x) := mul_le_mul_of_nonneg_left hr.1 hc
  have e3 : c * Double_round x ≤ c * x + c * x / 2 ^ 53 := by
    have : c * (x / 2 ^ 53) = c * x / 2 ^ 53 := by ring
    linarith
  have e4 : c * Double_round x / 2 ^ 53 ≤ (c * x + c * x / 2 ^ 53) / 2 ^ 53 :=
    div_le_div_of_nonneg_right e3 (by positivity)
  have e5 : c * x / 2 ^ 53 / 2 ^ 53 ≤ c * x / 2 ^ 53 :=
    div_le_self (by positivity) (by norm_num)
  have e6 : (c * x + c * x / 2 ^ 53) / 2 ^ 53 = c * x / 2 ^ 53 + c * x / 2 ^ 53 / 2 ^ 53 := by
    ring
  have e7 : c * (x / 2 ^ 53) = c * x / 2 ^ 53 := by ring
  have e8 : 3 * (c * x) / 2 ^ 53 = c * x / 2 ^ 53 + c * x / 2 ^ 53 + c * x / 2 ^ 53 := by ring
  constructor
  · linarith [hy.1]
  · linarith [hy.2]

theorem Double_ulp_eq (x : ℚ) (e : ℤ) (hlo : (2 : ℚ) ^ e ≤ |x|) (hhi : |x| < (2 : ℚ) ^ (e + 1)) :
    Double_ulp x = (2 : ℚ) ^ (e - 52) := by
  have hpos : 0 < |x| := lt_of_lt_of_le (by positivity) hlo
  have h1 : e ≤ Int.log 2 |x| := by
    rw [← Int.zpow_le_iff_le_log (by norm_num) hpos]
    simpa using hlo
  have h2 : Int.log 2 |x| < e + 1 := by
    rw [← Int.lt_zpow_iff_log_lt (by norm_num) hpos]
    simpa using hhi
  have h3 : Int.log 2 |x| = e := by omega
  unfold Double_ulp
  rw [h3]

theorem Double_round_eq (x : ℚ) (e n : ℤ) (hlo : (2 : ℚ) ^ e ≤ |x|)
    (hhi : |x| < (2 : ℚ) ^ (e + 1)) (hn : |x / (2 : ℚ) ^ (e - 52) - (n : ℚ)| < 1 / 2) :
    Double_round x = (n : ℚ) * (2 : ℚ) ^ (e - 52) := by
  have hx : x ≠ 0 := by
    intro h
    rw [h, abs_zero] at hlo
    exact absurd hlo (not_le.mpr (by positivity))
  unfold Double_round
  rw [if_neg hx, Double_ulp_eq x e hlo hhi, round_half_even_eq_of_lt _ n hn]

/-- At the shape `[198, 800, 3]` the two roundings to a double matter: the
engine's `pad` is 451, where exact arithmetic reaches the tie 451.5 and
rounds it up to 452. -/
theorem predict_pad_double_at_198_800 :
    predict_pad_double 198 800 = 451 ∧ predict_pad 198 800 = 452 := by
  have hx : Math_abs (((198 : ℕ) : ℚ) - ((800 : ℕ) : ℚ))
      / Math_max ((198 : ℕ) : ℚ) ((800 : ℕ) : ℚ) = 301 / 400 := by
    norm_num [Math_abs, Math_max]
  have h1 : Double_round (301 / 400) = (6777917439192596 : ℤ) * (2 : ℚ) ^ ((-1 : ℤ) - 52) :=
    Double_round_eq _ (-1) 6777917439192596 (by norm_num [abs_of_pos])
      (by norm_num [abs_of_pos]) (by rw [abs_lt]; norm_num)
  have h2 : Double_round ((6777917439192596 : ℤ) * (2 : ℚ) ^ ((-1 : ℤ) - 52) * ((600 : ℕ) : ℚ))
      = (7942871999053823 : ℤ) * (2 : ℚ) ^ ((8 : ℤ) - 52) :=
    Double_round_eq _ 8 7942871999053823 (by norm_num [abs_of_pos])
      (by norm_num [abs_of_pos]) (by rw [abs_lt]; norm_num)
  constructor
  · unfold predict_pad_double
    rw [hx, h1]
    have hS : ((APP_size : ℕ) : ℚ) = ((600 : ℕ) : ℚ) := rfl
    rw [hS, h2, Math_round, Int.floor_eq_iff]
    norm_num
  · norm_num [predict_pad, Math_round, Math_abs, Math_max, APP_size]

theorem normalize_padded_sum (d0 d1 : ℕ) :
    (normalize [d0, d1, 3]).padded = [max d0 d1, max d0 d1, 3] ∧
    (normalize [d0, d1, 3]).padded.sum = [d0, d1, 3].sum + (max d0 d1 - min d0 d1) := by
  have hpadded : (normalize [d0, d1, 3]).padded
      = tf_pad_shape [d0, d1, 3] (normalize_pad [d0, d1, 3]) := rfl
  rw [hpadded]
  rcases Nat.lt_or_ge d1 d0 with hgt | hle
  · rw [normalize_pad_of_gt hgt, max_eq_left hgt.le, min_eq_right hgt.le]
    have h : tf_pad_shape [d0, d1, 3] [(0, 0), (d0 - d1, 0), (0, 0)] = [d0, d0, 3] := by
      simp only [tf_pad_shape, List.zipWith_cons_cons, List.zipWith_nil_left, zero_add,
        add_zero]
      congr 2
      omega
    rw [h]
    refine ⟨rfl, ?_⟩
    simp only [List.sum_cons, List.sum_nil]
    omega
  · rw [normalize_pad_of_le hle, max_eq_right hle, min_eq_left hle]
    have h : tf_pad_shape [d0, d1, 3] [(d1 - d0, 0), (0, 0), (0, 0)] = [d1, d1, 3] := by
      simp only [tf_pad_shape, List.zipWith_cons_cons, List.zipWith_nil_left, zero_add,
        add_zero]
      congr 1
      omega
    rw [h]
    refine ⟨rfl, ?_⟩
    simp only [List.sum_cons, List.sum_nil]
    omega

/-- C4: for an image of positive width `w` and height `h`, `normalize` pads
the tensor of shape `[h, w, 3]` to `[max, max, 3]`, which adds `|w - h|` to
its extents; the `pad` of `predict`, `round(|w - h| / max(w, h) * 600)`,
differs by at most 1 from that amount rescaled to the output,
`|w - h| * 600 / max(w, h)`, both as the engine computes it in doubles and
in exact arithmetic. -/
theorem predict_pad_near_rescaled_padding (model : List ℕ → List ℕ) (width height : ℕ)
    (hw : 0 < width) (hh : 0 < height) :
    (normalize (fromPixels_shape width height)).padded
      = [max height width, max height width, 3] ∧
    (((normalize (fromPixels_shape width height)).padded.sum : ℕ) : ℚ)
        - (((fromPixels_shape width height).sum : ℕ) : ℚ)
      = |(width : ℚ) - (height : ℚ)| ∧
    |((predict_pad_double height width : ℤ) : ℚ)
        - ((((normalize (fromPixels_shape width height)).padded.sum : ℕ) : ℚ)
            - (((fromPixels_shape width height).sum : ℕ) : ℚ))
          * 600 / max (width : ℚ) (height : ℚ)| ≤ 1 ∧
    |((predict model width height).pad : ℚ)
        - ((((normalize (fromPixels_shape width height)).padded.sum : ℕ) : ℚ)
            - (((fromPixels_shape width height).sum : ℕ) : ℚ))
          * 600 / max (width : ℚ) (height : ℚ)| ≤ 1 := by
  have hpad : (predict model width height).pad = predict_pad height width := rfl
  have hshape : fromPixels_shape width height = [height, width, 3] := rfl
  have hfrac : predict_pad_fraction height width
      = |(width : ℚ) - (height : ℚ)| / max (width : ℚ) (height : ℚ) := by
    unfold predict_pad_fraction Math_abs Math_max
    rw [abs_sub_comm, max_comm]
  have hS : ((APP_size : ℕ) : ℚ) = 600 := by norm_num [APP_size]
  have hadded : (((normalize [height, width, 3]).padded.sum : ℕ) : ℚ)
      - ((([height, width, 3] : List ℕ).sum : ℕ) : ℚ) = |(width : ℚ) - (height : ℚ)| := by
    rw [(normalize_padded_sum height width).2, Nat.cast_add,
      Nat.cast_sub (le_trans (min_le_left _ _) (le_max_left _ _)), Nat.cast_max, Nat.cast_min,
      max_sub_min_eq_abs]
    ring
  have h0 := predict_pad_fraction_nonneg height width
  have h1 := predict_pad_fraction_lt_one height width hh hw
  rw [hfrac] at h0 h1
  have heq : |(width : ℚ) - (height : ℚ)| * 600 / max (width : ℚ) (height : ℚ)
      = 600 * (|(width : ℚ) - (height : ℚ)| / max (width : ℚ) (height : ℚ)) := by
    ring
  rw [hshape, hadded, hpad, heq]
  refine ⟨(normalize_padded_sum height width).1, rfl, ?_, ?_⟩
  · have hdef : predict_pad_double height width
        = Math_round (Double_round
            (600 * Double_round (|(width : ℚ) - (height : ℚ)| / max (width : ℚ) (height : ℚ)))) := by
      unfold predict_pad_double
      rw [hS, mul_comm]
      unfold Math_abs Math_max
      rw [abs_sub_comm, max_comm]
    rw [hdef]
    have hc := Double_round_mul_close
      (|(width : ℚ) - (height : ℚ)| / max (width : ℚ) (height : ℚ)) 600 h0 (by norm_num)
    have hr := Math_round_abs_sub_le (Double_round
      (600 * Double_round (|(width : ℚ) - (height : ℚ)| / max (width : ℚ) (height : ℚ))))
    have hsmall : 3 * (600 * (|(width : ℚ) - (height : ℚ)| / max (width : ℚ) (height : ℚ)))
        / 2 ^ 53 ≤ 1 / 2 := by
      rw [div_le_iff₀ (by positivity)]
      nlinarith
    rw [abs_le] at hc hr ⊢
    constructor <;> linarith [hc.1, hc.2, hr.1, hr.2]
  · have h := Math_round_abs_sub_le
      (|(width : ℚ) - (height : ℚ)| / max (width : ℚ) (height : ℚ) * 600)
    have hp : predict_pad height width
        = Math_round (|(width : ℚ) - (height : ℚ)| / max (width : ℚ) (height : ℚ) * 600) := by
      rw [predict_pad_eq, hfrac, hS]
    rw [hp, mul_comm (600 : ℚ)]
    linarith

theorem predict_pad_near_rescaled_padding_witness :
    |((predict_pad_double 198 800 : ℤ) : ℚ)
        - ((((normalize (fromPixels_shape 800 198)).padded.sum : ℕ) : ℚ)
            - (((fromPixels_shape 800 198).sum : ℕ) : ℚ))
          * 600 / max ((800 : ℕ) : ℚ) ((198 : ℕ) : ℚ)| ≤ 1 :=
  (predict_pad_near_rescaled_padding id 800 198 (by decide) (by decide)).2.2.1

/-! ## `resizeImage` in doubles -/

theorem Math_round_le_of_lt {x : ℚ} {n : ℤ} (h : x < (n : ℚ) + 1 / 2) : Math_round x ≤ n := by
  have h1 := Math_round_le x
  have h2 : ((Math_round x : ℤ) : ℚ) < ((n + 1 : ℤ) : ℚ) := by
    push_cast
    linarith
  have h3 : Math_round x < n + 1 := by exact_mod_cast h2
  omega

theorem Double_scaled_close (a m b B : ℕ) (ht : (a : ℚ) * ((m : ℚ) / (b : ℚ)) ≤ (B : ℚ))
    (hB : B < 2 ^ 32) :
    |Double_round ((a : ℚ) * Double_round ((m : ℚ) / (b : ℚ))) - (a : ℚ) * ((m : ℚ) / (b : ℚ))|
      ≤ 1 / 2 ^ 19 ∧
    Double_round ((a : ℚ) * Double_round ((m : ℚ) / (b : ℚ))) < (B : ℚ) + 1 / 2 := by
  have hx : (0 : ℚ) ≤ (m : ℚ) / (b : ℚ) := by positivity
  have hc := Double_round_mul_close ((m : ℚ) / (b : ℚ)) (a : ℚ) hx (by positivity)
  have hBq : (B : ℚ) < 2 ^ 32 := by exact_mod_cast hB
  have hsmall : 3 * ((a : ℚ) * ((m : ℚ) / (b : ℚ))) / 2 ^ 53 ≤ 1 / 2 ^ 19 := by
    rw [div_le_iff₀ (by positivity)]
    norm_num
    linarith
  have hclose := le_trans hc hsmall
  refine ⟨hclose, ?_⟩
  rw [abs_le] at hclose
  have : (1 : ℚ) / 2 ^ 19 < 1 / 2 := by norm_num
  linarith [hclose.2]

/-- C14, as stated, fails: for an image 232 wide and 145 high and
`maxDimension = 100`, the engine computes `145 * (100 / 232)` as a double
just below 62.5, so the canvas is 100 by 62, where
`round(145 * 100 / 232) = round(62.5) = 63`. -/
theorem resizeImage_dims_double_at_tie :
    resizeImage_dims_double 232 145 100 = ((100 : ℤ), (62 : ℤ)) ∧
    Math_round (((145 : ℕ) : ℚ) * ((100 : ℕ) : ℚ) / ((232 : ℕ) : ℚ)) = 63 ∧
    resizeImage_dims_double 232 145 100
      ≠ ((100 : ℤ), Math_round (((145 : ℕ) : ℚ) * ((100 : ℕ) : ℚ) / ((232 : ℕ) : ℚ))) := by
  have hx : ((100 : ℕ) : ℚ) / ((232 : ℕ) : ℚ) = 25 / 58 := by norm_num
  have h1 : Double_round (25 / 58) = (7764826943742234 : ℤ) * (2 : ℚ) ^ ((-2 : ℤ) - 52) :=
    Double_round_eq _ (-2) 7764826943742234 (by norm_num [abs_of_pos])
      (by norm_num [abs_of_pos]) (by rw [abs_lt]; norm_num)
  have h2 : Double_round (((145 : ℕ) : ℚ) * ((7764826943742234 : ℤ) * (2 : ℚ) ^ ((-2 : ℤ) - 52)))
      = (8796093022207999 : ℤ) * (2 : ℚ) ^ ((5 : ℤ) - 52) :=
    Double_round_eq _ 5 8796093022207999 (by norm_num [abs_of_pos])
      (by norm_num [abs_of_pos]) (by rw [abs_lt]; norm_num)
  have hd : resizeImage_dims_double 232 145 100 = ((100 : ℤ), (62 : ℤ)) := by
    unfold resizeImage_dims_double
    rw [if_pos (by decide), if_pos (by decide), hx, h1, h2]
    have hr : Math_round ((8796093022207999 : ℤ) * (2 : ℚ) ^ ((5 : ℤ) - 52)) = 62 := by
      rw [Math_round, Int.floor_eq_iff]
      norm_num
    rw [hr]
    rfl
  have he : Math_round (((145 : ℕ) : ℚ) * ((100 : ℕ) : ℚ) / ((232 : ℕ) : ℚ)) = 63 := by
    rw [Math_round, Int.floor_eq_iff]
    norm_num
  refine ⟨hd, he, ?_⟩
  rw [hd, he]
  decide

/-- C14, amended: in `resizeImage`, for positive `width`, `height`,
`maxDimension` below `2 ^ 32`: an image that fits keeps its dimensions;
otherwise the longer dimension becomes `maxDimension` and the other is
`Math.round(other * (maxDimension / longer))` as computed in doubles, within
`1/2 + 2 ^ -19` of `other * maxDimension / longer`; in every case both results
are at most `maxDimension` and neither exceeds its original value. -/
theorem resizeImage_dims_double_spec (width height maxDimension : ℕ)
    (hw : 0 < width) (hh : 0 < height) (_hm : 0 < maxDimension)
    (hw32 : width < 2 ^ 32) (hh32 : height < 2 ^ 32) (hm32 : maxDimension < 2 ^ 32) :
    (width ≤ maxDimension → height ≤ maxDimension →
      resizeImage_dims_double width height maxDimension = ((width : ℤ), (height : ℤ))) ∧
    (width > maxDimension ∨ height > maxDimension → width > height →
      resizeImage_dims_double width height maxDimension
        = ((maxDimension : ℤ),
            Math_round (Double_round
              ((height : ℚ) * Double_round ((maxDimension : ℚ) / (width : ℚ))))) ∧
      |(((resizeImage_dims_double width height maxDimension).2 : ℤ) : ℚ)
          - (height : ℚ) * (maxDimension : ℚ) / (width : ℚ)| ≤ 1 / 2 + 1 / 2 ^ 19) ∧
    (width > maxDimension ∨ height > maxDimension → width ≤ height →
      resizeImage_dims_double width height maxDimension
        = (Math_round (Double_round
              ((width : ℚ) * Double_round ((maxDimension : ℚ) / (height : ℚ)))),
            (maxDimension : ℤ)) ∧
      |(((resizeImage_dims_double width height maxDimension).1 : ℤ) : ℚ)
          - (width : ℚ) * (maxDimension : ℚ) / (height : ℚ)| ≤ 1 / 2 + 1 / 2 ^ 19) ∧
    (resizeImage_dims_double width height maxDimension).1 ≤ (maxDimension : ℤ) ∧
    (resizeImage_dims_double width height maxDimension).2 ≤ (maxDimension : ℤ) ∧
    (resizeImage_dims_double width height maxDimension).1 ≤ (width : ℤ) ∧
    (resizeImage_dims_double width height maxDimension).2 ≤ (height : ℤ) := by
  have hwide : ∀ hbig : width > maxDimension ∨ height > maxDimension, width > height →
      resizeImage_dims_double width height maxDimension
        = ((maxDimension : ℤ),
            Math_round (Double_round
              ((height : ℚ) * Double_round ((maxDimension : ℚ) / (width : ℚ))))) := by
    intro hbig hwh
    unfold resizeImage_dims_double
    rw [if_pos hbig, if_pos hwh]
  have htall : ∀ hbig : width > maxDimension ∨ height > maxDimension, width ≤ height →
      resizeImage_dims_double width height maxDimension
        = (Math_round (Double_round
              ((width : ℚ) * Double_round ((maxDimension : ℚ) / (height : ℚ)))),
            (maxDimension : ℤ)) := by
    intro hbig hwh
    unfold resizeImage_dims_double
    rw [if_pos hbig, if_neg (by omega)]
  have hfits : width ≤ maxDimension → height ≤ maxDimension →
      resizeImage_dims_double width height maxDimension = ((width : ℤ), (height : ℤ)) := by
    intro h1 h2
    unfold resizeImage_dims_double
    rw [if_neg (by omega)]
  refine ⟨hfits, ?_, ?_, ?_⟩
  · intro hbig hwh
    refine ⟨hwide hbig hwh, ?_⟩
    rw [hwide hbig hwh]
    have hc := (Double_scaled_close height maxDimension width maxDimension
      (scaled_le_max hw hwh.le) hm32).1
    have hr := Math_round_abs_sub_le
      (Double_round ((height : ℚ) * Double_round ((maxDimension : ℚ) / (width : ℚ))))
    have heq : (height : ℚ) * (maxDimension : ℚ) / (width : ℚ)
        = (height : ℚ) * ((maxDimension : ℚ) / (width : ℚ)) := by ring
    rw [heq]
    rw [abs_le] at hc hr ⊢
    constructor <;> linarith [hc.1, hc.2, hr.1, hr.2]
  · intro hbig hwh
    refine ⟨htall hbig hwh, ?_⟩
    rw [htall hbig hwh]
    have hc := (Double_scaled_close width maxDimension height maxDimension
      (scaled_le_max hh hwh) hm32).1
    have hr := Math_round_abs_sub_le
      (Double_round ((width : ℚ) * Double_round ((maxDimension : ℚ) / (height : ℚ))))
    have heq : (width : ℚ) * (maxDimension : ℚ) / (height : ℚ)
        = (width : ℚ) * ((maxDimension : ℚ) / (height : ℚ)) := by ring
    rw [heq]
    rw [abs_le] at hc hr ⊢
    constructor <;> linarith [hc.1, hc.2, hr.1, hr.2]
  · by_cases hbig : width > maxDimension ∨ height > maxDimension
    · rcases Nat.lt_or_ge height width with hwh | hwh
      · have hwm : maxDimension < width := by omega
        rw [hwide hbig hwh]
        refine ⟨le_rfl, ?_, Int.ofNat_le.mpr hwm.le, ?_⟩
        · exact Math_round_le_of_lt (by
            exact_mod_cast (Double_scaled_close height maxDimension width maxDimension
              (scaled_le_max hw hwh.le) hm32).2)
        · exact Math_round_le_of_lt (by
            exact_mod_cast (Double_scaled_close height maxDimension width height
              (scaled_le_self hw hwm.le) hh32).2)
      · have hhm : maxDimension < height := by omega
        rw [htall hbig hwh]
        refine ⟨?_, le_rfl, ?_, Int.ofNat_le.mpr hhm.le⟩
        · exact Math_round_le_of_lt (by
            exact_mod_cast (Double_scaled_close width maxDimension height maxDimension
              (scaled_le_max hh hwh) hm32).2)
        · exact Math_round_le_of_lt (by
            exact_mod_cast (Double_scaled_close width maxDimension height width
              (scaled_le_self hh hhm.le) hw32).2)
    · have h1 : width ≤ maxDimension := by omega
      have h2 : height ≤ maxDimension := by omega
      rw [hfits h1 h2]
      exact ⟨Int.ofNat_le.mpr h1, Int.ofNat_le.mpr h2, le_rfl, le_rfl⟩

theorem resizeImage_dims_double_spec_witness :
    (resizeImage_dims_double 232 145 100).1 ≤ ((100 : ℕ) : ℤ) ∧
    (resizeImage_dims_double 232 145 100).2 ≤ ((100 : ℕ) : ℤ) ∧
    (resizeImage_dims_double 232 145 100).1 ≤ ((232 : ℕ) : ℤ) ∧
    (resizeImage_dims_double 232 145 100).2 ≤ ((145 : ℕ) : ℤ) :=
  (resizeImage_dims_double_spec 232 145 100 (by decide) (by decide) (by decide)
    (by decide) (by decide) (by decide)).2.2.2

/-! ## Zero-area input -/

theorem TensorLib.call_error {ε : Type} (tf : TensorLib ε) (c : PredictCall)
    (k : List ℕ → List PredictCall × Except ε (List ℕ))
    (hk : ∀ t e, (k t).2 = Except.error e → ∃ c' ∈ (k t).1, tf c' = Except.error e)
    (e : ε) (h : (tf.call c k).2 = Except.error e) :
    ∃ c' ∈ (tf.call c k).1, tf c' = Except.error e := by
  unfold TensorLib.call at h ⊢
  cases hc : tf c with
  | error e' =>
    rw [hc] at h
    simp only at h ⊢
    refine ⟨c, List.mem_singleton.mpr rfl, ?_⟩
    rw [hc, h]
  | ok t =>
    rw [hc] at h
    simp only at h ⊢
    obtain ⟨c', hc', he⟩ := hk t e h
    exact ⟨c', List.mem_cons_of_mem c hc', he⟩

theorem TensorLib.call_ok {ε : Type} (tf : TensorLib ε) (c : PredictCall)
    (k : List ℕ → List PredictCall × Except ε (List ℕ))
    (hk : ∀ t r, (k t).2 = Except.ok r →
      ∃ input, PredictCall.model_predict input ∈ (k t).1 ∧
        tf (PredictCall.model_predict input) = Except.ok r)
    (r : List ℕ) (h : (tf.call c k).2 = Except.ok r) :
    ∃ input, PredictCall.model_predict input ∈ (tf.call c k).1 ∧
      tf (PredictCall.model_predict input) = Except.ok r := by
  unfold TensorLib.call at h ⊢
  cases hc : tf c with
  | error e' =>
    rw [hc] at h
    simp only at h
    exact absurd h (by simp)
  | ok t =>
    rw [hc] at h
    simp only at h ⊢
    obtain ⟨input, hin, hr⟩ := hk t r h
    exact ⟨input, List.mem_cons_of_mem c hin, hr⟩

theorem TensorLib.call_head {ε : Type} (tf : TensorLib ε) (c : PredictCall)
    (k : List ℕ → List PredictCall × Except ε (List ℕ)) :
    (tf.call c k).1.head? = some c := by
  unfold TensorLib.call
  cases tf c <;> rfl

/-- C12, as stated, fails: `predict` holds no test of a zero-area image.  On
an image 0 wide and 600 high, with a library whose calls return, `predict`
builds the tensors and calls the model; with a library whose `fromPixels`
throws on an empty image, `predict` ends with that exception of the library,
which is no `InvalidImage`. -/
theorem predict_to_inference_zero_width :
    predict_to_inference TensorLib.returning 0 600
      = ([PredictCall.fromPixels 0 600,
          PredictCall.pad [600, 0, 3] [(0, 0), (600, 0), (0, 0)],
          PredictCall.resizeBilinear [600, 600, 3] [600, 600],
          PredictCall.reshape [600, 600, 3] [1, 600, 600, 3],
          PredictCall.scalar 127.5,
          PredictCall.sub [1, 600, 600, 3],
          PredictCall.div [1, 600, 600, 3],
          PredictCall.model_predict [1, 600, 600, 3]], Except.ok [1, 600, 600, 3]) ∧
    predict_to_inference TensorLib.strict 0 600
      = ([PredictCall.fromPixels 0 600], Except.error "IndexSizeError") := by
  constructor
  · rfl
  · rfl

/-- C12, amended: for every input, of zero area or not, `predict` and
`normalize` make no test of the image and raise nothing of their own.  The
first thing `predict` does is call `tf.browser.fromPixels`; when that call
throws, `predict` ends with its exception and makes no other call; an
exception `predict` ends with up to inference is one thrown by a call it
made; `normalize` pads whatever tensor `fromPixels` returned; and when every
call returns, the model has been called. -/
theorem predict_to_inference_no_check {ε : Type} (tf : TensorLib ε) (width height : ℕ) :
    (predict_to_inference tf width height).1.head?
      = some (PredictCall.fromPixels width height) ∧
    (∀ e, tf (PredictCall.fromPixels width height) = Except.error e →
      predict_to_inference tf width height
        = ([PredictCall.fromPixels width height], Except.error e)) ∧
    (∀ e, (predict_to_inference tf width height).2 = Except.error e →
      ∃ c ∈ (predict_to_inference tf width height).1, tf c = Except.error e) ∧
    (∀ img, tf (PredictCall.fromPixels width height) = Except.ok img →
      (predict_to_inference tf width height).1.take 2
        = [PredictCall.fromPixels width height, PredictCall.pad img (normalize_pad img)]) ∧
    (∀ r, (predict_to_inference tf width height).2 = Except.ok r →
      ∃ input, PredictCall.model_predict input ∈ (predict_to_inference tf width height).1 ∧
        tf (PredictCall.model_predict input) = Except.ok r) := by
  refine ⟨TensorLib.call_head tf _ _, ?_, ?_, ?_, ?_⟩
  · intro e he
    unfold predict_to_inference TensorLib.call
    rw [he]
  · intro e he
    unfold predict_to_inference normalize_run at he ⊢
    refine TensorLib.call_error tf _ _ (fun t1 e1 h1 => ?_) e he
    refine TensorLib.call_error tf _ _ (fun t2 e2 h2 => ?_) e1 h1
    refine TensorLib.call_error tf _ _ (fun t3 e3 h3 => ?_) e2 h2
    refine TensorLib.call_error tf _ _ (fun t4 e4 h4 => ?_) e3 h3
    refine TensorLib.call_error tf _ _ (fun t5 e5 h5 => ?_) e4 h4
    refine TensorLib.call_error tf _ _ (fun t6 e6 h6 => ?_) e5 h5
    refine TensorLib.call_error tf _ _ (fun t7 e7 h7 => ?_) e6 h6
    refine TensorLib.call_error tf _ _ (fun t8 e8 h8 => ?_) e7 h7
    exact absurd h8 (by simp)
  · intro img himg
    unfold predict_to_inference
    have hhead := TensorLib.call_head tf (PredictCall.pad img (normalize_pad img))
      (fun img =>
        tf.call (PredictCall.resizeBilinear img [APP_size, APP_size]) fun img =>
        tf.call (PredictCall.reshape img [1, APP_size, APP_size, 3]) fun img =>
        tf.call (PredictCall.scalar 127.5) fun _offset =>
        tf.call (PredictCall.sub img) fun img =>
        tf.call (PredictCall.div img) fun img =>
        tf.call (PredictCall.model_predict img) fun result => ([], Except.ok result))
    rw [TensorLib.call, himg]
    simp only [normalize_run]
    revert hhead
    generalize (tf.call (PredictCall.pad img (normalize_pad img)) _).1 = l
    intro hhead
    cases l with
    | nil => simp at hhead
    | cons x xs =>
      simp only [List.head?_cons, Option.some.injEq] at hhead
      rw [hhead]
      rfl
  · intro r hr
    unfold predict_to_inference normalize_run at hr ⊢
    refine TensorLib.call_ok tf _ _ (fun t1 r1 h1 => ?_) r hr
    refine TensorLib.call_ok tf _ _ (fun t2 r2 h2 => ?_) r1 h1
    refine TensorLib.call_ok tf _ _ (fun t3 r3 h3 => ?_) r2 h2
    refine TensorLib.call_ok tf _ _ (fun t4 r4 h4 => ?_) r3 h3
    refine TensorLib.call_ok tf _ _ (fun t5 r5 h5 => ?_) r4 h4
    refine TensorLib.call_ok tf _ _ (fun t6 r6 h6 => ?_) r5 h5
    refine TensorLib.call_ok tf _ _ (fun t7 r7 h7 => ?_) r6 h6
    unfold TensorLib.call at h7 ⊢
    cases hc : tf (PredictCall.model_predict t7) with
    | error e' =>
      rw [hc] at h7
      simp only at h7
      exact absurd h7 (by simp)
    | ok t =>
      rw [hc] at h7
      simp only at h7 ⊢
      refine ⟨t7, List.mem_singleton.mpr rfl, ?_⟩
      rw [hc, h7]

theorem predict_to_inference_no_check_witness :
    predict_to_inference TensorLib.strict 600 0
      = ([PredictCall.fromPixels 600 0], Except.error "IndexSizeError") :=
  (predict_to_inference_no_check TensorLib.strict 600 0).2.1 "IndexSizeError" rfl

end Cartoonization
